import Mathlib

/-!
Controller mapping files: settings layout parser, loader and serializer.

A shallow embedding of `src/controllers/legacycontrollermappingfilehandler.cpp`
and of the layout classes of `src/controllers/legacycontrollersettingslayout.h`.

* Qt values (`QString`, `QDomElement`, `QDomDocument`) are modelled by pure data:
  a string is a `String`, a DOM node is a tree, a null element is `none`.
* The objects the C++ code mutates through pointers (the mapping, the layout
  container that is being filled) are passed in and returned.
* The setting factory `LegacyControllerSettingBuilder::build` and the settings it
  produces are collaborators that are not part of these sources; they are taken
  as parameters (`SettingBuilder`).
-/

namespace Mixxx

/-! ## Qt strings -/

/-- The characters for which `QChar::isSpace` holds: the space, the control
characters U+0009..U+000D, U+0085, U+00A0 and the Unicode separators. -/
def isSpace (c : Char) : Bool :=
  let n := c.toNat
  n == 0x20 || (0x09 ≤ n && n ≤ 0x0d) || n == 0x85 || n == 0xa0 || n == 0x1680 ||
    (0x2000 ≤ n && n ≤ 0x200a) || n == 0x2028 || n == 0x2029 || n == 0x202f ||
    n == 0x205f || n == 0x3000

/-- The function `QString::trimmed`: whitespace removed from the start and the end. -/
def trimmed (s : String) : String :=
  String.mk ((s.data.dropWhile isSpace).reverse.dropWhile isSpace).reverse

/-- The function `QString::toLower`, on the letters `A`..`Z`; every other
character is kept. -/
def toLower (s : String) : String :=
  String.mk (s.data.map Char.toLower)

/-! ## Qt DOM -/

/-- A DOM node: an element with its tag name, its attributes and its child
nodes in document order, or a text node. -/
inductive QDomNode where
  | element (tagName : String) (attributes : List (String × String))
      (childNodes : List QDomNode)
  | text (data : String)

namespace QDomNode

/-- Whether the node is an element (`QDomNode::isElement`). -/
def isElement : QDomNode → Bool
  | element _ _ _ => true
  | text _ => false

/-- The tag of an element (`QDomElement::tagName`); empty for any other node. -/
def tagName : QDomNode → String
  | element t _ _ => t
  | text _ => ""

/-- The child nodes in document order (`QDomNode::childNodes`). -/
def childNodes : QDomNode → List QDomNode
  | element _ _ kids => kids
  | text _ => []

/-- The attribute lookup `QDomElement::attribute(name, defValue)`. -/
def attributeValue (e : QDomNode) (name : String) (defValue : String := "") : String :=
  match e with
  | element _ attrs _ => (attrs.lookup name).getD defValue
  | text _ => defValue

/-- The update `QDomElement::setAttribute(name, value)`: the value of an existing
attribute is replaced, a new attribute is added after the others. -/
def setAttribute (e : QDomNode) (name value : String) : QDomNode :=
  match e with
  | element t attrs kids =>
    if (attrs.lookup name).isSome then
      element t (attrs.map fun a => if a.1 == name then (a.1, value) else a) kids
    else
      element t (attrs ++ [(name, value)]) kids
  | text d => text d

/-- The update `QDomNode::appendChild(newChild)` on an element: the new child
becomes the last child.  A text node takes no child. -/
def appendChild (e : QDomNode) (newChild : QDomNode) : QDomNode :=
  match e with
  | element t attrs kids => element t attrs (kids ++ [newChild])
  | text d => text d

/-- The lookup `QDomNode::firstChildElement(tagName)`: the first child that is an
element with this tag, `none` (a null element) when there is none. -/
def firstChildElement (e : QDomNode) (tag : String) : Option QDomNode :=
  e.childNodes.find? fun n => n.isElement && n.tagName == tag

end QDomNode

mutual
/-- The text of a node (`QDomElement::text`): the text nodes below it, concatenated in
document order. -/
def QDomNode.elementText : QDomNode → String
  | .text d => d
  | .element _ _ kids => QDomNode.textOfNodes kids
/-- The concatenated text of a list of sibling nodes. -/
def QDomNode.textOfNodes : List QDomNode → String
  | [] => ""
  | n :: ns => QDomNode.elementText n ++ QDomNode.textOfNodes ns
end

/-- A `QDomDocument`, seen through `documentElement()`; `none` is the null element
of a document without a root. -/
structure QDomDocument where
  documentElement : Option QDomNode

/-! ## Layout tree (`legacycontrollersettingslayout.h`) -/

/-- The enumeration `LegacyControllerSettingsLayoutContainer::Disposition`. -/
inductive Disposition where
  | HORIZONTAL
  | VERTICAL
  deriving DecidableEq, Repr

open Disposition

/-- The objects behind a `LegacyControllerSettingsLayoutElement` pointer, one
constructor per concrete class, with the members of the class:
`LayoutContainer` is `LegacyControllerSettingsLayoutContainer`, `Group` is
`LegacyControllerSettingsGroup`, `LayoutItem` is
`LegacyControllerSettingsLayoutItem`. -/
inductive LegacyControllerSettingsLayoutElement (σ : Type) where
  | LayoutContainer (m_disposition m_widgetOrientation : Disposition)
      (m_elements : List (LegacyControllerSettingsLayoutElement σ))
  | Group (m_label : String) (m_disposition m_widgetOrientation : Disposition)
      (m_elements : List (LegacyControllerSettingsLayoutElement σ))
  | LayoutItem (m_setting : σ) (m_prefferedOrientation : Disposition)

/-- The object behind a `std::unique_ptr<LegacyControllerSettingsLayoutContainer>`:
a container, or a group (the subclass) when `m_label` is `some label`. -/
structure LegacyControllerSettingsLayoutContainer (σ : Type) where
  m_label : Option String
  m_disposition : Disposition
  m_widgetOrientation : Disposition
  m_elements : List (LegacyControllerSettingsLayoutElement σ)

namespace LegacyControllerSettingsLayoutContainer

/-- The constructor `LegacyControllerSettingsLayoutContainer(disposition,
widgetOrientation)`, both arguments defaulting to `HORIZONTAL`. -/
def new {σ : Type} (disposition : Disposition := HORIZONTAL)
    (widgetOrientation : Disposition := HORIZONTAL) :
    LegacyControllerSettingsLayoutContainer σ :=
  { m_label := none, m_disposition := disposition,
    m_widgetOrientation := widgetOrientation, m_elements := [] }

/-- The constructor `LegacyControllerSettingsGroup(label, disposition)`: the
disposition defaults to `VERTICAL` and is handed to the base constructor, whose
second argument keeps its default. -/
def newGroup {σ : Type} (label : String) (disposition : Disposition := VERTICAL) :
    LegacyControllerSettingsLayoutContainer σ :=
  { (new disposition : LegacyControllerSettingsLayoutContainer σ) with m_label := some label }

/-- The container as an element of its parent (the pointer conversion made by
`push_back`). -/
def toElement {σ : Type} (c : LegacyControllerSettingsLayoutContainer σ) :
    LegacyControllerSettingsLayoutElement σ :=
  match c.m_label with
  | none => .LayoutContainer c.m_disposition c.m_widgetOrientation c.m_elements
  | some label => .Group label c.m_disposition c.m_widgetOrientation c.m_elements

/-- The overload `addItem(std::unique_ptr<LegacyControllerSettingsLayoutContainer>&&)`:
`m_elements.push_back(std::move(container))`. -/
def addItem {σ : Type} (c container : LegacyControllerSettingsLayoutContainer σ) :
    LegacyControllerSettingsLayoutContainer σ :=
  { c with m_elements := c.m_elements ++ [container.toElement] }

/-- Modelled from the spec: the overload
`addItem(std::shared_ptr<AbstractLegacyControllerSetting>)`, which the header
declares and whose body is in a file that is not part of the sources.  The spec:
"append a `Leaf` node to the current container", a leaf being
`Leaf { setting, preferredOrientation }`.  The orientation the leaf receives is
not stated; it is the parameter `itemOrientation`, applied to the two
orientation members of the container. -/
def addSettingItem {σ : Type} (itemOrientation : Disposition → Disposition → Disposition)
    (c : LegacyControllerSettingsLayoutContainer σ) (setting : σ) :
    LegacyControllerSettingsLayoutContainer σ :=
  { c with
    m_elements := c.m_elements ++
      [.LayoutItem setting (itemOrientation c.m_disposition c.m_widgetOrientation)] }

end LegacyControllerSettingsLayoutContainer

/-! ## The mapping -/

/-- The record `LegacyControllerMapping::ScriptFileInfo`, with the members the
file handler reads and writes; `file` is the path of the `QFileInfo`. -/
structure ScriptFileInfo where
  name : String
  functionPrefix : String
  file : String
  builtin : Bool
  deriving DecidableEq, Repr

/-- Modelled from the spec: the class `LegacyControllerMapping`, whose header is
not part of the sources.  The spec: a record of optional strings
`{schemaVersion, appVersion, name, author, description, forumLink, manualPage,
wikiLink, deviceId}` (the empty string standing for an absent value), an ordered
script-file collection, a flat collection of settings and the settings layout.
The members are named after the accessors the file handler calls. -/
structure LegacyControllerMapping (σ : Type) where
  mixxxVersion : String := ""
  schemaVersion : String := ""
  name : String := ""
  author : String := ""
  description : String := ""
  forumlink : String := ""
  manualPage : String := ""
  wikilink : String := ""
  deviceId : String := ""
  dirPath : String := ""
  scriptFiles : List ScriptFileInfo := []
  settings : List σ := []
  settingLayout : Option (LegacyControllerSettingsLayoutContainer σ) := none
  dirty : Bool := false

namespace LegacyControllerMapping

variable {σ : Type}

/-- Modelled from the spec: `addSetting`, of the mapping's header.  The spec:
"append the setting to the mapping's flat collection". -/
def addSetting (m : LegacyControllerMapping σ) (option : σ) : LegacyControllerMapping σ :=
  { m with settings := m.settings ++ [option] }

/-- Modelled from the spec: `setSettingLayout`, which installs the layout tree in
the mapping. -/
def setSettingLayout (m : LegacyControllerMapping σ)
    (layout : LegacyControllerSettingsLayoutContainer σ) : LegacyControllerMapping σ :=
  { m with settingLayout := some layout }

/-- Modelled from the spec: `addScriptFile(name, functionPrefix, file, builtin)`,
of the mapping's header, `builtin` defaulting to `false`: a new entry at the end
of the ordered script-file collection. -/
def addScriptFile (m : LegacyControllerMapping σ) (name functionPrefix file : String)
    (builtin : Bool := false) : LegacyControllerMapping σ :=
  { m with scriptFiles := m.scriptFiles ++ [{ name, functionPrefix, file, builtin }] }

/-- Modelled from the spec: the setter `setMixxxVersion`. -/
def setMixxxVersion (m : LegacyControllerMapping σ) (v : String) : LegacyControllerMapping σ :=
  { m with mixxxVersion := v }

/-- Modelled from the spec: the setter `setSchemaVersion`. -/
def setSchemaVersion (m : LegacyControllerMapping σ) (v : String) : LegacyControllerMapping σ :=
  { m with schemaVersion := v }

/-- Modelled from the spec: the setter `setName`. -/
def setName (m : LegacyControllerMapping σ) (v : String) : LegacyControllerMapping σ :=
  { m with name := v }

/-- Modelled from the spec: the setter `setAuthor`. -/
def setAuthor (m : LegacyControllerMapping σ) (v : String) : LegacyControllerMapping σ :=
  { m with author := v }

/-- Modelled from the spec: the setter `setDescription`. -/
def setDescription (m : LegacyControllerMapping σ) (v : String) : LegacyControllerMapping σ :=
  { m with description := v }

/-- Modelled from the spec: the setter `setForumLink`. -/
def setForumLink (m : LegacyControllerMapping σ) (v : String) : LegacyControllerMapping σ :=
  { m with forumlink := v }

/-- Modelled from the spec: the setter `setManualPage`. -/
def setManualPage (m : LegacyControllerMapping σ) (v : String) : LegacyControllerMapping σ :=
  { m with manualPage := v }

/-- Modelled from the spec: the setter `setWikiLink`. -/
def setWikiLink (m : LegacyControllerMapping σ) (v : String) : LegacyControllerMapping σ :=
  { m with wikilink := v }

/-- Modelled from the spec: the setter `setDirty`; the spec speaks of a mapping
that is marked "not modified". -/
def setDirty (m : LegacyControllerMapping σ) (v : Bool) : LegacyControllerMapping σ :=
  { m with dirty := v }

/-- Modelled from the spec: the setter `setDeviceId`. -/
def setDeviceId (m : LegacyControllerMapping σ) (v : String) : LegacyControllerMapping σ :=
  { m with deviceId := v }

end LegacyControllerMapping

/-! ## Collaborators of the settings parser -/

/-- What the settings parser calls and is not part of the sources:
`build` is `LegacyControllerSettingBuilder::build` (`none` for a null pointer),
`valid` is `AbstractLegacyControllerSetting::valid`, and `itemOrientation` is the
orientation that `addItem` gives a new leaf (see `addSettingItem`). -/
structure SettingBuilder (σ : Type) where
  build : QDomNode → Option σ
  valid : σ → Bool
  itemOrientation : Disposition → Disposition → Disposition

/-! ## `LegacyControllerMappingFileHandler`: the settings parser -/

open LegacyControllerSettingsLayoutContainer in
mutual
/-- The body of the `for` loop of `parseMappingSettingsElement`, for one child node
`element` of `current`: the mapping and the container `layout` after the
iteration.  A node that is not an element is never visited by
`firstChildElement()` and `nextSiblingElement()`. -/
def parseMappingSettingsElement.body {σ : Type} (b : SettingBuilder σ) :
    QDomNode → LegacyControllerMapping σ → LegacyControllerSettingsLayoutContainer σ →
      LegacyControllerMapping σ × LegacyControllerSettingsLayoutContainer σ
  | .text _, mapping, layout => (mapping, layout)
  | .element tag attrs kids, mapping, layout =>
    let element := QDomNode.element tag attrs kids
    let tagName := toLower tag
    if tagName = "option" then
      match b.build element with
      | none => (mapping, layout)
      | some pSetting =>
        if !b.valid pSetting then (mapping, layout)
        else (mapping.addSetting pSetting, addSettingItem b.itemOrientation layout pSetting)
    else if tagName = "row" then
      let orientation :=
        if toLower (trimmed (element.attributeValue "orientation")) = "vertical"
        then VERTICAL else HORIZONTAL
      let row : LegacyControllerSettingsLayoutContainer σ := new HORIZONTAL orientation
      let r := parseMappingSettingsElement.loop b kids mapping row
      (r.1, layout.addItem r.2)
    else if tagName = "group" then
      let group : LegacyControllerSettingsLayoutContainer σ :=
        newGroup (element.attributeValue "label")
      let r := parseMappingSettingsElement.loop b kids mapping group
      (r.1, layout.addItem r.2)
    else (mapping, layout)
/-- The `for` loop of `parseMappingSettingsElement` over the child nodes that
remain, first child first, then each next sibling. -/
def parseMappingSettingsElement.loop {σ : Type} (b : SettingBuilder σ) :
    List QDomNode → LegacyControllerMapping σ → LegacyControllerSettingsLayoutContainer σ →
      LegacyControllerMapping σ × LegacyControllerSettingsLayoutContainer σ
  | [], mapping, layout => (mapping, layout)
  | element :: rest, mapping, layout =>
    let r := parseMappingSettingsElement.body b element mapping layout
    parseMappingSettingsElement.loop b rest r.1 r.2
end

/-- The method `parseMappingSettingsElement(current, mapping, layout)`: the
mapping and the container after the call. -/
def parseMappingSettingsElement {σ : Type} (b : SettingBuilder σ) (current : QDomNode)
    (mapping : LegacyControllerMapping σ) (layout : LegacyControllerSettingsLayoutContainer σ) :
    LegacyControllerMapping σ × LegacyControllerSettingsLayoutContainer σ :=
  parseMappingSettingsElement.loop b current.childNodes mapping layout

/-- The method `parseMappingSettings(root, mapping)`: `root` is `none` for a null
element, `mapping` is `none` for a null pointer; the result is the mapping
after the call. -/
def parseMappingSettings {σ : Type} (b : SettingBuilder σ) (root : Option QDomNode)
    (mapping : Option (LegacyControllerMapping σ)) : Option (LegacyControllerMapping σ) :=
  match root, mapping with
  | some root, some mapping =>
    match root.firstChildElement "settings" with
    | none => some mapping
    | some settings =>
      let settingLayout : LegacyControllerSettingsLayoutContainer σ :=
        LegacyControllerSettingsLayoutContainer.new VERTICAL
      let r := parseMappingSettingsElement b settings mapping settingLayout
      some (r.1.setSettingLayout r.2)
  | _, _ => mapping

/-! ## `LegacyControllerMappingFileHandler`: metadata and script files -/

/-- The function `QDir::absoluteFilePath(fileName)`, for a directory given by its
absolute path `dir`, with `/` as the separator: a file name that is absolute (it
starts with `/`) is returned as it is; for an empty file name the result is
the path of the directory; any other file name is joined to the path of the
directory, with a `/` between them unless the path of the directory ends with
one. -/
def absoluteFilePath (dir fileName : String) : String :=
  if fileName.data.head? == some '/' then fileName
  else if fileName.data.isEmpty then dir
  else if dir.data.getLast? == some '/' then dir ++ fileName
  else dir ++ "/" ++ fileName

/-- The function `findScriptFile(mapping, filename, systemMappingsPath)`.  A `QDir`
is given by its absolute path, a `QFileInfo` by the path of the file, and
`fileExists` tells whether `QFileInfo::exists()` holds of a path. -/
def findScriptFile {σ : Type} (fileExists : String → Bool)
    (mapping : LegacyControllerMapping σ) (filename : String) (systemMappingsPath : String) :
    String :=
  let file := absoluteFilePath mapping.dirPath filename
  if !fileExists file then absoluteFilePath systemMappingsPath filename else file

/-- The expression `e.isNull() ? "" : e.text()` of `parseMappingInfo`, for
`e = info.firstChildElement(tag)`. -/
def textOfChild (info : QDomNode) (tag : String) : String :=
  match info.firstChildElement tag with
  | none => ""
  | some e => e.elementText

/-- The method `parseMappingInfo(root, mapping)`: `root` is `none` for a null
element, `mapping` is `none` for a null pointer; the result is the mapping
after the call. -/
def parseMappingInfo {σ : Type} (root : Option QDomNode)
    (mapping : Option (LegacyControllerMapping σ)) : Option (LegacyControllerMapping σ) :=
  match root, mapping with
  | some root, some mapping =>
    match root.firstChildElement "info" with
    | none => some mapping
    | some info =>
      let mapping := mapping.setMixxxVersion (root.attributeValue "mixxxVersion" "")
      let mapping := mapping.setSchemaVersion (root.attributeValue "schemaVersion" "")
      let mapping := mapping.setName (textOfChild info "name")
      let mapping := mapping.setAuthor (textOfChild info "author")
      let mapping := mapping.setDescription (textOfChild info "description")
      let mapping := mapping.setForumLink (textOfChild info "forums")
      let mapping := mapping.setManualPage (textOfChild info "manual")
      let mapping := mapping.setWikiLink (textOfChild info "wiki")
      some mapping
  | _, _ => mapping

/-- The method `getControllerNode(root)`. -/
def getControllerNode (root : Option QDomNode) : Option QDomNode :=
  match root with
  | none => none
  | some root => root.firstChildElement "controller"

/-- The `while` loop of `addScriptFilesToMapping`: `siblings` are the child nodes
of the `scriptfiles` element that are still to be looked at; the nodes that
`firstChildElement("file")` and `nextSiblingElement("file")` step over (those
that are not `file` elements) add nothing. -/
def addScriptFilesToMapping.loop {σ : Type} (fileExists : String → Bool)
    (systemMappingsPath : String) :
    List QDomNode → LegacyControllerMapping σ → LegacyControllerMapping σ
  | [], mapping => mapping
  | scriptFile :: siblings, mapping =>
    if scriptFile.isElement && scriptFile.tagName == "file" then
      let functionPrefix := scriptFile.attributeValue "functionprefix" ""
      let filename := scriptFile.attributeValue "filename" ""
      let file := findScriptFile fileExists mapping filename systemMappingsPath
      addScriptFilesToMapping.loop fileExists systemMappingsPath siblings
        (mapping.addScriptFile filename functionPrefix file)
    else
      addScriptFilesToMapping.loop fileExists systemMappingsPath siblings mapping

/-- The method `addScriptFilesToMapping(controller, mapping, systemMappingsPath)`;
`controller` is `none` for a null element.  `REQUIRED_SCRIPT_FILE` is a constant
of `controllers/defs_controllers.h`, which is not part of the sources. -/
def addScriptFilesToMapping {σ : Type} (REQUIRED_SCRIPT_FILE : String)
    (fileExists : String → Bool) (controller : Option QDomNode)
    (mapping : LegacyControllerMapping σ) (systemMappingsPath : String) :
    LegacyControllerMapping σ :=
  match controller with
  | none => mapping
  | some controller =>
    let mapping := mapping.setDeviceId (controller.attributeValue "id" "")
    let siblings : List QDomNode :=
      match controller.firstChildElement "scriptfiles" with
      | none => []
      | some scriptfiles => scriptfiles.childNodes
    let mapping := mapping.addScriptFile REQUIRED_SCRIPT_FILE ""
      (findScriptFile fileExists mapping REQUIRED_SCRIPT_FILE systemMappingsPath) true
    addScriptFilesToMapping.loop fileExists systemMappingsPath siblings mapping

/-! ## `LegacyControllerMappingFileHandler`: the serializer -/

/-- Modelled from the spec: `rootDeviceName`, which `buildRootWithScripts` calls
and which is not part of the sources.  The spec: "device identifiers are of the
form `<model> <serial>`; stripping removes the last whitespace-delimited token".
Read from the end of the identifier: the last token (the characters after the
last whitespace) goes, and so does the whitespace that delimits it. -/
def rootDeviceName (deviceName : String) : String :=
  let fromEnd := deviceName.data.reverse.dropWhile isSpace
  let withoutToken := fromEnd.dropWhile fun c => !isSpace c
  String.mk (withoutToken.dropWhile isSpace).reverse

/-- The function `addTextTag(doc, holder, tagName, tagText)`: `holder` after the
call. -/
def addTextTag (holder : QDomNode) (tagName tagText : String) : QDomNode :=
  let tag := QDomNode.element tagName [] []
  let textNode := QDomNode.text tagText
  let tag := tag.appendChild textNode
  holder.appendChild tag

/-- The document that `buildRootWithScripts` starts from, after
`doc.setContent(blank)`: its element is the `MixxxControllerPreset` element that
the start tag of the template opens, without attribute and without child.  (The
template in the source closes it with `</<MixxxControllerPreset>`; the return
value of `setContent` is not looked at, and the element exists in the document
from the moment its start tag is read.) -/
def blankDocument : QDomDocument :=
  { documentElement := some (QDomNode.element "MixxxControllerPreset" [] []) }

/-- The `for` loop of `buildRootWithScripts` over the script files that remain:
the `scriptfiles` element after the loop. -/
def buildRootWithScripts.loop : List ScriptFileInfo → QDomNode → QDomNode
  | [], scriptFiles => scriptFiles
  | script :: rest, scriptFiles =>
    let filename := script.name
    if script.builtin then buildRootWithScripts.loop rest scriptFiles
    else
      let functionPrefix := script.functionPrefix
      let scriptFile := QDomNode.element "file" [] []
      let scriptFile := scriptFile.setAttribute "filename" filename
      let scriptFile := scriptFile.setAttribute "functionprefix" functionPrefix
      buildRootWithScripts.loop rest (scriptFiles.appendChild scriptFile)

/-- The method `buildRootWithScripts(mapping)`.  `XML_SCHEMA_VERSION` is a constant
of `controllers/defs_controllers.h`, which is not part of the sources.  A
`QDomElement` is a handle on a node of the document, so that what is appended to
`info`, `controller` and `scriptFiles` after they were attached is part of the
document; here each element is completed and then attached, in the order of the
`appendChild` calls of the source. -/
def buildRootWithScripts {σ : Type} (XML_SCHEMA_VERSION : String)
    (mapping : LegacyControllerMapping σ) : QDomDocument :=
  let doc := blankDocument
  let rootNode := doc.documentElement
  let rootNode := rootNode.map fun r => r.setAttribute "schemaVersion" XML_SCHEMA_VERSION
  let rootNode := rootNode.map fun r => r.setAttribute "mixxxVersion" mapping.mixxxVersion
  let info := QDomNode.element "info" [] []
  let info := if mapping.name.length > 0 then addTextTag info "name" mapping.name else info
  let info := if mapping.author.length > 0 then addTextTag info "author" mapping.author else info
  let info :=
    if mapping.description.length > 0 then addTextTag info "description" mapping.description
    else info
  let info :=
    if mapping.forumlink.length > 0 then addTextTag info "forums" mapping.forumlink else info
  let info := if mapping.wikilink.length > 0 then addTextTag info "wiki" mapping.wikilink else info
  let controller := QDomNode.element "controller" [] []
  let controller := controller.setAttribute "id" (rootDeviceName mapping.deviceId)
  let scriptFiles := QDomNode.element "scriptfiles" [] []
  let scriptFiles := buildRootWithScripts.loop mapping.scriptFiles scriptFiles
  let controller := controller.appendChild scriptFiles
  let rootNode := rootNode.map fun r => r.appendChild info
  let rootNode := rootNode.map fun r => r.appendChild controller
  { documentElement := rootNode }

/-! ## Reading a layout tree and a settings element tree

The definitions of this section are not in the source: they say what a layout
tree holds and what a settings element tree stands for, and the parser is
compared with them. -/

mutual
/-- The settings held by the leaves below a layout node, in pre-order. -/
def LegacyControllerSettingsLayoutElement.leaves {σ : Type} :
    LegacyControllerSettingsLayoutElement σ → List σ
  | .LayoutItem setting _ => [setting]
  | .LayoutContainer _ _ elements => LegacyControllerSettingsLayoutElement.leavesOfList elements
  | .Group _ _ _ elements => LegacyControllerSettingsLayoutElement.leavesOfList elements
/-- The settings held by the leaves below a sequence of layout nodes, node after
node. -/
def LegacyControllerSettingsLayoutElement.leavesOfList {σ : Type} :
    List (LegacyControllerSettingsLayoutElement σ) → List σ
  | [] => []
  | e :: es =>
    LegacyControllerSettingsLayoutElement.leaves e ++
      LegacyControllerSettingsLayoutElement.leavesOfList es
end

/-- The settings held by the leaves of the layout tree below a container, in
pre-order. -/
def LegacyControllerSettingsLayoutContainer.leaves {σ : Type}
    (c : LegacyControllerSettingsLayoutContainer σ) : List σ :=
  LegacyControllerSettingsLayoutElement.leavesOfList c.m_elements

/-- The setting of an accepted `option` element: the factory returns a setting
and the setting is valid. -/
def acceptedSetting {σ : Type} (b : SettingBuilder σ) (element : QDomNode) : Option σ :=
  match b.build element with
  | none => none
  | some pSetting => if b.valid pSetting then some pSetting else none

/-- The orientation a `row` element asks for: `VERTICAL` when its `orientation`
attribute, trimmed and lower-cased, is "vertical", `HORIZONTAL` otherwise. -/
def rowOrientation (element : QDomNode) : Disposition :=
  if toLower (trimmed (element.attributeValue "orientation")) = "vertical" then .VERTICAL
  else .HORIZONTAL

mutual
/-- The layout node that a child node stands for, inside a container whose
orientation members are `d` and `w`: a leaf for an accepted `option`, a
container for a `row`, a group for a `group`, nothing for any other node. -/
def layoutNodeOf {σ : Type} (b : SettingBuilder σ) (d w : Disposition) :
    QDomNode → Option (LegacyControllerSettingsLayoutElement σ)
  | .text _ => none
  | .element tag attrs kids =>
    if toLower tag = "option" then
      (acceptedSetting b (.element tag attrs kids)).map fun s =>
        .LayoutItem s (b.itemOrientation d w)
    else if toLower tag = "row" then
      some (.LayoutContainer .HORIZONTAL (rowOrientation (.element tag attrs kids))
        (layoutNodesOf b .HORIZONTAL (rowOrientation (.element tag attrs kids)) kids))
    else if toLower tag = "group" then
      some (.Group ((QDomNode.element tag attrs kids).attributeValue "label")
        .VERTICAL .HORIZONTAL (layoutNodesOf b .VERTICAL .HORIZONTAL kids))
    else none
/-- The layout nodes that a sequence of sibling nodes stands for, in document
order. -/
def layoutNodesOf {σ : Type} (b : SettingBuilder σ) (d w : Disposition) :
    List QDomNode → List (LegacyControllerSettingsLayoutElement σ)
  | [] => []
  | n :: ns => (layoutNodeOf b d w n).toList ++ layoutNodesOf b d w ns
end

mutual
/-- The settings of the accepted `option` elements at and below a child node,
reached through `row` and `group` elements, in depth-first document order. -/
def settingsOf {σ : Type} (b : SettingBuilder σ) : QDomNode → List σ
  | .text _ => []
  | .element tag attrs kids =>
    if toLower tag = "option" then (acceptedSetting b (.element tag attrs kids)).toList
    else if toLower tag = "row" ∨ toLower tag = "group" then settingsOfNodes b kids
    else []
/-- The settings of the accepted `option` elements at and below a sequence of
sibling nodes: those of the first sibling before those of the later ones. -/
def settingsOfNodes {σ : Type} (b : SettingBuilder σ) : List QDomNode → List σ
  | [] => []
  | n :: ns => settingsOf b n ++ settingsOfNodes b ns
end

/-- Whether a child node is an element with an unsupported tag: its lower-cased
tag is none of `option`, `row`, `group`. -/
def unsupportedElement : QDomNode → Bool
  | .text _ => false
  | .element tag _ _ =>
    !(toLower tag == "option" || toLower tag == "row" || toLower tag == "group")

mutual
/-- A child node without the unsupported elements below it that are reached
through `row` and `group` elements; an `option` element is kept as it is. -/
def pruneUnsupported : QDomNode → QDomNode
  | .text d => .text d
  | .element tag attrs kids =>
    if toLower tag = "row" ∨ toLower tag = "group" then
      .element tag attrs (pruneUnsupportedNodes kids)
    else .element tag attrs kids
/-- A sequence of sibling nodes without its unsupported elements (each removed
with its whole subtree), the remaining siblings pruned in turn. -/
def pruneUnsupportedNodes : List QDomNode → List QDomNode
  | [] => []
  | n :: ns =>
    if unsupportedElement n then pruneUnsupportedNodes ns
    else pruneUnsupported n :: pruneUnsupportedNodes ns
end

/-- The element `current` with the unsupported elements removed from its children,
at any depth reached through `row` and `group` elements. -/
def withoutUnsupported (current : QDomNode) : QDomNode :=
  match current with
  | .text d => .text d
  | .element tag attrs kids => .element tag attrs (pruneUnsupportedNodes kids)

/-- An `option` element that the parser rejects: the factory returns no setting
(unrecognized) or a setting that is not valid (invalid). -/
def rejectedOption {σ : Type} (b : SettingBuilder σ) (element : QDomNode) : Bool :=
  element.isElement && toLower element.tagName == "option" &&
    match b.build element with
    | none => true
    | some pSetting => !b.valid pSetting

/-- The `id` attribute of the `controller` element of a document. -/
def controllerId (doc : QDomDocument) : String :=
  match getControllerNode doc.documentElement with
  | none => ""
  | some controller => controller.attributeValue "id"

/-- The child nodes of the `controller/scriptfiles` element of a document. -/
def scriptFileNodes (doc : QDomDocument) : List QDomNode :=
  match (getControllerNode doc.documentElement).bind fun c =>
      c.firstChildElement "scriptfiles" with
  | none => []
  | some scriptfiles => scriptfiles.childNodes

/-- The text of the first child `tag` of the `info` element of a document, the
empty string when there is no such child. -/
def infoText (doc : QDomDocument) (tag : String) : String :=
  match (doc.documentElement.bind fun r => r.firstChildElement "info").bind fun i =>
      i.firstChildElement tag with
  | none => ""
  | some e => e.elementText

/-- The `file` element that stands for a script entry. -/
def scriptFileElement (script : ScriptFileInfo) : QDomNode :=
  .element "file" [("filename", script.name), ("functionprefix", script.functionPrefix)] []

/-- The mapping obtained by loading the metadata and the script files of a
document into a fresh mapping: `parseMappingInfo` on the document element, then
`addScriptFilesToMapping` on the node that `getControllerNode` returns. -/
def loadMetadataAndScripts {σ : Type} (REQUIRED_SCRIPT_FILE : String)
    (fileExists : String → Bool) (systemMappingsPath : String) (doc : QDomDocument) :
    LegacyControllerMapping σ :=
  let fresh : LegacyControllerMapping σ := {}
  let mapping := (parseMappingInfo doc.documentElement (some fresh)).getD fresh
  addScriptFilesToMapping REQUIRED_SCRIPT_FILE fileExists
    (getControllerNode doc.documentElement) mapping systemMappingsPath


/-- The mapping with further settings at the end of its flat collection. -/
def withSettings {σ : Type} (m : LegacyControllerMapping σ) (ss : List σ) : LegacyControllerMapping σ :=
  { m with settings := m.settings ++ ss }

/-- The container with further elements at the end. -/
def withElements {σ : Type} (l : LegacyControllerSettingsLayoutContainer σ)
    (es : List (LegacyControllerSettingsLayoutElement σ)) :
    LegacyControllerSettingsLayoutContainer σ :=
  { l with m_elements := l.m_elements ++ es }

/-- The children of the `info` element that stand for the metadata of a mapping:
one text element for each of the five fields that is not empty. -/
def infoChildren {σ : Type} (mapping : LegacyControllerMapping σ) : List QDomNode :=
  ([("name", mapping.name), ("author", mapping.author),
      ("description", mapping.description), ("forums", mapping.forumlink),
      ("wiki", mapping.wikilink)].filter fun p => p.2.length > 0).map
    fun p => QDomNode.element p.1 [] [QDomNode.text p.2]

/-- A setting factory for the examples: the setting of an `option` element is
the value of its `variable` attribute; there is none when the attribute is
absent or empty, and the setting "invalid" is not valid. -/
def exampleBuilder : SettingBuilder String :=
  { build := fun e =>
      if e.attributeValue "variable" = "" then none else some (e.attributeValue "variable")
    valid := fun s => s != "invalid"
    itemOrientation := fun _ w => w }

/-- The second serialization of the round trip: the mapping is serialized, the
metadata and the script files of the document are loaded into a fresh mapping,
and that mapping is serialized. -/
def serializeLoadSerialize {σ : Type} (XML_SCHEMA_VERSION REQUIRED_SCRIPT_FILE : String)
    (fileExists : String → Bool) (systemMappingsPath : String)
    (mapping : LegacyControllerMapping σ) : QDomDocument :=
  buildRootWithScripts XML_SCHEMA_VERSION
    (loadMetadataAndScripts REQUIRED_SCRIPT_FILE fileExists systemMappingsPath
      (buildRootWithScripts XML_SCHEMA_VERSION mapping) : LegacyControllerMapping σ)

/-- The mapping of the round-trip example: the device id of the spec, one
builtin script entry and two script entries of the mapping file. -/
def exampleMapping : LegacyControllerMapping String :=
  { name := "Example", author := "", description := "A mapping",
    deviceId := "Generic MIDI Controller 0A1B2C",
    scriptFiles :=
      [{ name := "common-controller-scripts.js", functionPrefix := "", file := "", builtin := true },
        { name := "a.js", functionPrefix := "A", file := "", builtin := false },
        { name := "b.js", functionPrefix := "", file := "", builtin := false }] }

/-! ## `LegacyControllerMappingFileHandler::loadMapping` -/

/-- A `QFileInfo`, seen through the member functions that `loadMapping` calls:
`fileExists` is `exists()`. -/
structure QFileInfo where
  path : String
  fileName : String
  absoluteFilePath : String
  fileExists : Bool
  isReadable : Bool

/-- The format handlers that `loadMapping` creates:
`LegacyMidiControllerMappingFileHandler` and
`LegacyHidControllerMappingFileHandler`. -/
inductive MappingFileHandler where
  | Midi
  | Hid
  deriving DecidableEq, Repr

/-- What `loadMapping` takes from outside these sources: the three extensions
(constants of `controllers/defs_controllers.h`), whether `__HID__` is defined,
and `load`, the virtual member function `load(path, systemMappingsPath)` of
each handler. -/
structure LoadEnvironment (σ : Type) where
  MIDI_MAPPING_EXTENSION : String
  HID_MAPPING_EXTENSION : String
  BULK_MAPPING_EXTENSION : String
  hidDefined : Bool
  load : MappingFileHandler → String → String → Option (LegacyControllerMapping σ)

/-- The test `QString::endsWith(suffix, Qt::CaseInsensitive)`. -/
def endsWithCaseInsensitive (s suffix : String) : Bool :=
  (toLower suffix).data.isSuffixOf (toLower s).data

/-- The handler `pHandler` that `loadMapping` selects from the file name; `none`
is the null pointer. -/
def selectHandler {σ : Type} (env : LoadEnvironment σ) (fileName : String) :
    Option MappingFileHandler :=
  if endsWithCaseInsensitive fileName env.MIDI_MAPPING_EXTENSION then some .Midi
  else if endsWithCaseInsensitive fileName env.HID_MAPPING_EXTENSION ||
      endsWithCaseInsensitive fileName env.BULK_MAPPING_EXTENSION then
    if env.hidDefined then some .Hid else none
  else none

/-- The outcome of `loadMapping`: `invoked` is the handler whose `load` was
called (`none` when no handler was called) and `pMapping` the pointer that is
returned (`none` for `nullptr`). -/
structure LoadMappingResult (σ : Type) where
  invoked : Option MappingFileHandler
  pMapping : Option (LegacyControllerMapping σ)

/-- The static member function `loadMapping(mappingFile, systemMappingsPath)`. -/
def loadMapping {σ : Type} (env : LoadEnvironment σ) (mappingFile : QFileInfo)
    (systemMappingsPath : String) : LoadMappingResult σ :=
  if mappingFile.path.isEmpty then { invoked := none, pMapping := none }
  else if !mappingFile.fileExists || !mappingFile.isReadable then
    { invoked := none, pMapping := none }
  else
    match selectHandler env mappingFile.fileName with
    | none => { invoked := none, pMapping := none }
    | some pHandler =>
      let pMapping := env.load pHandler mappingFile.absoluteFilePath systemMappingsPath
      { invoked := some pHandler, pMapping := pMapping.map fun m => m.setDirty false }

/-! ## `clone()` of the layout classes -/

mutual
/-- The virtual member function `clone()`.  An item is copied by the implicit copy
constructor, member by member.  A container and a group are copied by the copy
constructor that `LegacyControllerSettingsLayoutContainer` declares: it has no
member initializer, so that `m_elements` receives the clones of the elements of
the original and `m_disposition`, `m_widgetOrientation` are left as they are
found; `uninitialized` stands for the values these two members hold.  The
implicit copy constructor of the group then copies `m_label`. -/
def LegacyControllerSettingsLayoutElement.clone {σ : Type}
    (uninitialized : Disposition × Disposition) :
    LegacyControllerSettingsLayoutElement σ → LegacyControllerSettingsLayoutElement σ
  | .LayoutItem setting orientation => .LayoutItem setting orientation
  | .LayoutContainer _ _ elements =>
    .LayoutContainer uninitialized.1 uninitialized.2
      (LegacyControllerSettingsLayoutElement.cloneAll uninitialized elements)
  | .Group label _ _ elements =>
    .Group label uninitialized.1 uninitialized.2
      (LegacyControllerSettingsLayoutElement.cloneAll uninitialized elements)
/-- The loop of the copy constructor: `m_elements.push_back(e->clone())` for each
element of the original, in order. -/
def LegacyControllerSettingsLayoutElement.cloneAll {σ : Type}
    (uninitialized : Disposition × Disposition) :
    List (LegacyControllerSettingsLayoutElement σ) →
      List (LegacyControllerSettingsLayoutElement σ)
  | [] => []
  | e :: es =>
    LegacyControllerSettingsLayoutElement.clone uninitialized e ::
      LegacyControllerSettingsLayoutElement.cloneAll uninitialized es
end

/-- The member function `clone()` of a container or group, on the object itself. -/
def LegacyControllerSettingsLayoutContainer.clone {σ : Type}
    (uninitialized : Disposition × Disposition)
    (c : LegacyControllerSettingsLayoutContainer σ) :
    LegacyControllerSettingsLayoutContainer σ :=
  { m_label := c.m_label, m_disposition := uninitialized.1,
    m_widgetOrientation := uninitialized.2,
    m_elements := LegacyControllerSettingsLayoutElement.cloneAll uninitialized c.m_elements }

/-! ## Further readings of element trees -/

mutual
/-- Whether two nodes differ at most in the letter case of tag names: the same
text, or elements with the same lower-cased tag, the same attributes and
children that correspond one to one. -/
def sameUpToTagCase : QDomNode → QDomNode → Bool
  | .text d, .text d' => d == d'
  | .element tag attrs kids, .element tag' attrs' kids' =>
    toLower tag == toLower tag' && attrs == attrs' && sameUpToTagCaseList kids kids'
  | .text _, .element _ _ _ => false
  | .element _ _ _, .text _ => false
/-- Whether two sequences of sibling nodes correspond one to one up to the letter
case of tag names. -/
def sameUpToTagCaseList : List QDomNode → List QDomNode → Bool
  | [], [] => true
  | n :: ns, n' :: ns' => sameUpToTagCase n n' && sameUpToTagCaseList ns ns'
  | [], _ :: _ => false
  | _ :: _, [] => false
end

mutual
/-- The elements that the parser hands to the setting factory when it handles a
child node: the `option` elements at and below it that are reached through `row`
and `group` elements, in the order of the calls. -/
def handedToFactory : QDomNode → List QDomNode
  | .text _ => []
  | .element tag attrs kids =>
    if toLower tag = "option" then [.element tag attrs kids]
    else if toLower tag = "row" ∨ toLower tag = "group" then handedToFactoryList kids
    else []
/-- The elements handed to the setting factory for a sequence of sibling nodes. -/
def handedToFactoryList : List QDomNode → List QDomNode
  | [] => []
  | n :: ns => handedToFactory n ++ handedToFactoryList ns
end

/-- A setting factory that records what it is handed: the setting it returns for
an element is the element itself, and every setting is valid. -/
def recordingBuilder : SettingBuilder QDomNode :=
  { build := fun e => some e
    valid := fun _ => true
    itemOrientation := fun _ w => w }

/-- The `file` elements among the children of the first `scriptfiles` child of a
`controller` element, in document order. -/
def scriptFileChildren (controller : QDomNode) : List QDomNode :=
  match controller.firstChildElement "scriptfiles" with
  | none => []
  | some scriptfiles => scriptfiles.childNodes.filter fun n => n.isElement && n.tagName == "file"

/-- The child nodes of the `info` element of a document. -/
def infoNodes (doc : QDomDocument) : List QDomNode :=
  match doc.documentElement.bind fun r => r.firstChildElement "info" with
  | none => []
  | some info => info.childNodes

/-- A file for the examples of `loadMapping`. -/
def exampleFile (fileName : String) (fileExists isReadable : Bool) : QFileInfo :=
  { path := "/home/user/controllers", fileName := fileName,
    absoluteFilePath := "/home/user/controllers/" ++ fileName,
    fileExists := fileExists, isReadable := isReadable }

/-- An environment for the examples of `loadMapping`: both handlers return a
mapping that is marked modified. -/
def exampleEnvironment : LoadEnvironment String :=
  { MIDI_MAPPING_EXTENSION := ".midi.xml", HID_MAPPING_EXTENSION := ".hid.xml",
    BULK_MAPPING_EXTENSION := ".bulk.xml", hidDefined := true,
    load := fun _ path _ => some { name := path, dirty := true } }

/-! ## Lemmas on the settings parser -/

section ParserLemmas

variable {σ : Type}

open LegacyControllerSettingsLayoutContainer

theorem loop_nil (b : SettingBuilder σ) (m : LegacyControllerMapping σ)
    (l : LegacyControllerSettingsLayoutContainer σ) :
    parseMappingSettingsElement.loop b [] m l = (m, l) := by
  simp [parseMappingSettingsElement.loop]

theorem loop_cons (b : SettingBuilder σ) (n : QDomNode) (ns : List QDomNode)
    (m : LegacyControllerMapping σ) (l : LegacyControllerSettingsLayoutContainer σ) :
    parseMappingSettingsElement.loop b (n :: ns) m l =
      parseMappingSettingsElement.loop b ns
        (parseMappingSettingsElement.body b n m l).1
        (parseMappingSettingsElement.body b n m l).2 := by
  simp [parseMappingSettingsElement.loop]

theorem loop_append (b : SettingBuilder σ) (xs ys : List QDomNode) :
    ∀ (m : LegacyControllerMapping σ) (l : LegacyControllerSettingsLayoutContainer σ),
      parseMappingSettingsElement.loop b (xs ++ ys) m l =
        parseMappingSettingsElement.loop b ys
          (parseMappingSettingsElement.loop b xs m l).1
          (parseMappingSettingsElement.loop b xs m l).2 := by
  induction xs with
  | nil => intro m l; simp [loop_nil]
  | cons x xs ih => intro m l; simp [loop_cons, ih]

mutual
theorem body_eq (b : SettingBuilder σ) :
    ∀ (n : QDomNode) (m : LegacyControllerMapping σ)
      (l : LegacyControllerSettingsLayoutContainer σ),
      parseMappingSettingsElement.body b n m l =
        (withSettings m (settingsOf b n),
          withElements l (layoutNodeOf b l.m_disposition l.m_widgetOrientation n).toList)
  | .text d, m, l => by
    simp [parseMappingSettingsElement.body, settingsOf, layoutNodeOf, withSettings, withElements]
  | .element tag attrs kids, m, l => by
    have ih := loop_eq b kids
    simp only [parseMappingSettingsElement.body, settingsOf, layoutNodeOf]
    by_cases h1 : toLower tag = "option"
    · simp only [h1, if_true, acceptedSetting]
      cases hb : b.build (.element tag attrs kids) with
      | none => simp [withSettings, withElements]
      | some s =>
        cases hv : b.valid s <;>
          simp [hv, withSettings, withElements, LegacyControllerMapping.addSetting,
            addSettingItem]
    · by_cases h2 : toLower tag = "row"
      · simp [h1, h2, ih, withSettings, withElements, addItem, toElement, new, rowOrientation]
      · by_cases h3 : toLower tag = "group"
        · simp [h1, h2, h3, ih, withSettings, withElements, addItem, toElement, new, newGroup]
        · simp [h1, h2, h3, withSettings, withElements]
theorem loop_eq (b : SettingBuilder σ) :
    ∀ (ns : List QDomNode) (m : LegacyControllerMapping σ)
      (l : LegacyControllerSettingsLayoutContainer σ),
      parseMappingSettingsElement.loop b ns m l =
        (withSettings m (settingsOfNodes b ns),
          withElements l (layoutNodesOf b l.m_disposition l.m_widgetOrientation ns))
  | [], m, l => by
    simp [parseMappingSettingsElement.loop, settingsOfNodes, layoutNodesOf, withSettings,
      withElements]
  | n :: ns, m, l => by
    have h1 := body_eq b n
    have h2 := loop_eq b ns
    simp [parseMappingSettingsElement.loop, settingsOfNodes, layoutNodesOf, h1, h2,
      withSettings, withElements]
end


theorem leavesOfList_append (xs ys : List (LegacyControllerSettingsLayoutElement σ)) :
    LegacyControllerSettingsLayoutElement.leavesOfList (xs ++ ys) =
      LegacyControllerSettingsLayoutElement.leavesOfList xs ++
        LegacyControllerSettingsLayoutElement.leavesOfList ys := by
  induction xs with
  | nil => simp [LegacyControllerSettingsLayoutElement.leavesOfList]
  | cons x xs ih => simp [LegacyControllerSettingsLayoutElement.leavesOfList, ih]

mutual
theorem leaves_layoutNodeOf (b : SettingBuilder σ) (d w : Disposition) :
    ∀ n : QDomNode,
      LegacyControllerSettingsLayoutElement.leavesOfList (layoutNodeOf b d w n).toList =
        settingsOf b n
  | .text _ => by
    simp [layoutNodeOf, settingsOf, LegacyControllerSettingsLayoutElement.leavesOfList]
  | .element tag attrs kids => by
    have ih1 := leaves_layoutNodesOf b .HORIZONTAL (rowOrientation (.element tag attrs kids)) kids
    have ih2 := leaves_layoutNodesOf b .VERTICAL .HORIZONTAL kids
    simp only [layoutNodeOf, settingsOf]
    by_cases h1 : toLower tag = "option"
    · simp only [h1, if_true]
      cases acceptedSetting b (.element tag attrs kids) <;>
        simp [LegacyControllerSettingsLayoutElement.leavesOfList,
          LegacyControllerSettingsLayoutElement.leaves]
    · by_cases h2 : toLower tag = "row"
      · simp [h1, h2, ih1, LegacyControllerSettingsLayoutElement.leavesOfList,
          LegacyControllerSettingsLayoutElement.leaves]
      · by_cases h3 : toLower tag = "group"
        · simp [h1, h2, h3, ih2, LegacyControllerSettingsLayoutElement.leavesOfList,
            LegacyControllerSettingsLayoutElement.leaves]
        · simp [h1, h2, h3, LegacyControllerSettingsLayoutElement.leavesOfList]
theorem leaves_layoutNodesOf (b : SettingBuilder σ) (d w : Disposition) :
    ∀ ns : List QDomNode,
      LegacyControllerSettingsLayoutElement.leavesOfList (layoutNodesOf b d w ns) =
        settingsOfNodes b ns
  | [] => by
    simp [layoutNodesOf, settingsOfNodes, LegacyControllerSettingsLayoutElement.leavesOfList]
  | n :: ns => by
    have h1 := leaves_layoutNodeOf b d w n
    have h2 := leaves_layoutNodesOf b d w ns
    simp [layoutNodesOf, settingsOfNodes, leavesOfList_append, h1, h2]
end

theorem layoutNodesOf_eq_filterMap (b : SettingBuilder σ) (d w : Disposition)
    (ns : List QDomNode) :
    layoutNodesOf b d w ns = ns.filterMap (layoutNodeOf b d w) := by
  induction ns with
  | nil => simp [layoutNodesOf]
  | cons n ns ih =>
    cases h : layoutNodeOf b d w n <;> simp [layoutNodesOf, List.filterMap_cons, h, ih]

theorem settingsOfNodes_eq_flatMap (b : SettingBuilder σ) (ns : List QDomNode) :
    settingsOfNodes b ns = ns.flatMap (settingsOf b) := by
  induction ns with
  | nil => simp [settingsOfNodes]
  | cons n ns ih => simp [settingsOfNodes, ih]

theorem unsupported_stands_for_nothing (b : SettingBuilder σ) (d w : Disposition)
    (n : QDomNode) (h : unsupportedElement n = true) :
    settingsOf b n = [] ∧ layoutNodeOf b d w n = none := by
  cases n with
  | text _ => simp [unsupportedElement] at h
  | element tag attrs kids =>
    simp [unsupportedElement] at h
    simp [settingsOf, layoutNodeOf, h]

mutual
theorem pruneUnsupported_stands_for (b : SettingBuilder σ) :
    ∀ (n : QDomNode), unsupportedElement n = false →
      settingsOf b (pruneUnsupported n) = settingsOf b n ∧
        ∀ d w, layoutNodeOf b d w (pruneUnsupported n) = layoutNodeOf b d w n
  | .text _, _ => by simp [pruneUnsupported]
  | .element tag attrs kids, _ => by
    have ih := pruneUnsupportedNodes_stands_for b kids
    by_cases h2 : toLower tag = "row"
    · have h1 : toLower tag ≠ "option" := by rw [h2]; decide
      simp [pruneUnsupported, settingsOf, layoutNodeOf, h1, h2, ih, rowOrientation,
        QDomNode.attributeValue]
    · by_cases h3 : toLower tag = "group"
      · have h1 : toLower tag ≠ "option" := by rw [h3]; decide
        simp [pruneUnsupported, settingsOf, layoutNodeOf, h1, h2, h3, ih,
          QDomNode.attributeValue]
      · simp [pruneUnsupported, h2, h3]
theorem pruneUnsupportedNodes_stands_for (b : SettingBuilder σ) :
    ∀ (ns : List QDomNode),
      settingsOfNodes b (pruneUnsupportedNodes ns) = settingsOfNodes b ns ∧
        ∀ d w, layoutNodesOf b d w (pruneUnsupportedNodes ns) = layoutNodesOf b d w ns
  | [] => by simp [pruneUnsupportedNodes]
  | n :: ns => by
    have ih := pruneUnsupportedNodes_stands_for b ns
    cases h : unsupportedElement n with
    | true =>
      have hs := (unsupported_stands_for_nothing b .HORIZONTAL .HORIZONTAL n h).1
      have hn := fun d w => (unsupported_stands_for_nothing b d w n h).2
      simp [pruneUnsupportedNodes, h, settingsOfNodes, layoutNodesOf, ih, hs, hn]
    | false =>
      have hn := pruneUnsupported_stands_for b n h
      simp [pruneUnsupportedNodes, h, settingsOfNodes, layoutNodesOf, ih, hn]
end


theorem toLower_literals :
    toLower "option" = "option" ∧ toLower "row" = "row" ∧ toLower "group" = "group" ∧
      toLower "settings" = "settings" := by decide

/-- C1: after `parseMappingSettingsElement` has run on a fresh container, the
settings held by the leaves of the layout tree, read in pre-order, are exactly
the settings that the call appended to the flat collection of the mapping, in
the same order. -/
theorem parseMappingSettingsElement_leaves_eq_appended (b : SettingBuilder σ)
    (current : QDomNode) (mapping : LegacyControllerMapping σ) (label : Option String)
    (disposition widgetOrientation : Disposition) :
    (parseMappingSettingsElement b current mapping
        { m_label := label, m_disposition := disposition,
          m_widgetOrientation := widgetOrientation, m_elements := [] }).1.settings =
      mapping.settings ++
        (parseMappingSettingsElement b current mapping
          { m_label := label, m_disposition := disposition,
            m_widgetOrientation := widgetOrientation, m_elements := [] }).2.leaves := by
  simp [parseMappingSettingsElement, loop_eq, withSettings, withElements,
    LegacyControllerSettingsLayoutContainer.leaves, leaves_layoutNodesOf]

/-- C2: for `<settings><row orientation="vertical"><option/><option/></row>
<group label="Pads"><option/></group></settings>`, a factory that accepts the
three options and a mapping whose flat collection is empty, `parseMappingSettings`
installs a root container (disposition `VERTICAL`) with two children, in this
order: the row (widget orientation `VERTICAL`) with 2 leaves, then the group
labeled "Pads" with 1 leaf; the flat collection holds the 3 settings in document
order. -/
theorem parseMappingSettings_row_group_example (b : SettingBuilder σ)
    (rootTag : String) (rootAttrs a₁ a₂ a₃ : List (String × String))
    (k₁ k₂ k₃ : List QDomNode) (s₁ s₂ s₃ : σ) (mapping : LegacyControllerMapping σ)
    (h₁ : b.build (.element "option" a₁ k₁) = some s₁) (v₁ : b.valid s₁ = true)
    (h₂ : b.build (.element "option" a₂ k₂) = some s₂) (v₂ : b.valid s₂ = true)
    (h₃ : b.build (.element "option" a₃ k₃) = some s₃) (v₃ : b.valid s₃ = true)
    (hm : mapping.settings = []) :
    parseMappingSettings b
        (some (.element rootTag rootAttrs
          [.element "settings" []
            [.element "row" [("orientation", "vertical")]
                [.element "option" a₁ k₁, .element "option" a₂ k₂],
              .element "group" [("label", "Pads")] [.element "option" a₃ k₃]]]))
        (some mapping) =
      some { mapping with
        settings := [s₁, s₂, s₃]
        settingLayout := some
          { m_label := none, m_disposition := .VERTICAL, m_widgetOrientation := .HORIZONTAL,
            m_elements :=
              [.LayoutContainer .HORIZONTAL .VERTICAL
                  [.LayoutItem s₁ (b.itemOrientation .HORIZONTAL .VERTICAL),
                    .LayoutItem s₂ (b.itemOrientation .HORIZONTAL .VERTICAL)],
                .Group "Pads" .VERTICAL .HORIZONTAL
                  [.LayoutItem s₃ (b.itemOrientation .VERTICAL .HORIZONTAL)]] } } := by
  obtain ⟨ho, hr, hg, _⟩ := toLower_literals
  have hv : toLower (trimmed "vertical") = "vertical" := by decide
  simp [parseMappingSettings, QDomNode.firstChildElement, QDomNode.childNodes,
    QDomNode.isElement, QDomNode.tagName, parseMappingSettingsElement,
    parseMappingSettingsElement.loop, parseMappingSettingsElement.body, ho, hr, hg, h₁, h₂, h₃,
    v₁, v₂, v₃, hm, hv, QDomNode.attributeValue, List.lookup,
    LegacyControllerMapping.addSetting, LegacyControllerMapping.setSettingLayout,
    addSettingItem, addItem, toElement, new, newGroup]


theorem parseMappingSettings_row_group_example_witness :
    parseMappingSettings exampleBuilder
        (some (.element "MixxxControllerPreset" []
          [.element "settings" []
            [.element "row" [("orientation", "vertical")]
                [.element "option" [("variable", "a")] [],
                  .element "option" [("variable", "b")] []],
              .element "group" [("label", "Pads")]
                [.element "option" [("variable", "c")] []]]]))
        (some {}) =
      some
        { settings := ["a", "b", "c"]
          settingLayout := some
            { m_label := none, m_disposition := .VERTICAL, m_widgetOrientation := .HORIZONTAL,
              m_elements :=
                [.LayoutContainer .HORIZONTAL .VERTICAL
                    [.LayoutItem "a" .VERTICAL, .LayoutItem "b" .VERTICAL],
                  .Group "Pads" .VERTICAL .HORIZONTAL [.LayoutItem "c" .HORIZONTAL]] } } :=
  parseMappingSettings_row_group_example exampleBuilder "MixxxControllerPreset" []
    [("variable", "a")] [("variable", "b")] [("variable", "c")] [] [] [] "a" "b" "c" {}
    (by decide) (by decide) (by decide) (by decide) (by decide) (by decide) rfl

/-- C3: a `row` element adds one container to the current container; the
orientation the row asks for, kept in the member `m_widgetOrientation`, is
`VERTICAL` if and only if the `orientation` attribute, trimmed and lower-cased,
is "vertical", and `HORIZONTAL` for every other value, an absent attribute
included; the member `m_disposition` of a row is always `HORIZONTAL`. -/
theorem parseMappingSettingsElement_row_orientation (b : SettingBuilder σ) (tag : String)
    (attrs : List (String × String)) (kids : List QDomNode)
    (mapping : LegacyControllerMapping σ) (layout : LegacyControllerSettingsLayoutContainer σ)
    (hrow : toLower tag = "row") :
    ∃ (orientation : Disposition) (elements : List (LegacyControllerSettingsLayoutElement σ)),
      (parseMappingSettingsElement.body b (.element tag attrs kids) mapping layout).2 =
          { layout with
            m_elements := layout.m_elements ++
              [.LayoutContainer .HORIZONTAL orientation elements] } ∧
        (orientation = .VERTICAL ↔
          toLower (trimmed ((QDomNode.element tag attrs kids).attributeValue "orientation"))
            = "vertical") ∧
        (orientation = .HORIZONTAL ↔
          toLower (trimmed ((QDomNode.element tag attrs kids).attributeValue "orientation"))
            ≠ "vertical") := by
  have h1 : toLower tag ≠ "option" := by rw [hrow]; decide
  refine ⟨rowOrientation (.element tag attrs kids),
    layoutNodesOf b .HORIZONTAL (rowOrientation (.element tag attrs kids)) kids, ?_, ?_, ?_⟩
  · simp [body_eq, withElements, layoutNodeOf, h1, hrow]
  · unfold rowOrientation; split <;> simp_all
  · unfold rowOrientation; split <;> simp_all

theorem parseMappingSettingsElement_row_orientation_witness :
    ∃ (orientation : Disposition) (elements : List (LegacyControllerSettingsLayoutElement String)),
      (parseMappingSettingsElement.body exampleBuilder
          (.element "Row" [("orientation", " Vertical\n")] []) {}
          (LegacyControllerSettingsLayoutContainer.new .VERTICAL)).2 =
          { (LegacyControllerSettingsLayoutContainer.new .VERTICAL :
              LegacyControllerSettingsLayoutContainer String) with
            m_elements :=
              (LegacyControllerSettingsLayoutContainer.new .VERTICAL :
                LegacyControllerSettingsLayoutContainer String).m_elements ++
              [.LayoutContainer .HORIZONTAL orientation elements] } ∧
        (orientation = .VERTICAL ↔
          toLower (trimmed ((QDomNode.element "Row" [("orientation", " Vertical\n")] []
            ).attributeValue "orientation")) = "vertical") ∧
        (orientation = .HORIZONTAL ↔
          toLower (trimmed ((QDomNode.element "Row" [("orientation", " Vertical\n")] []
            ).attributeValue "orientation")) ≠ "vertical") :=
  parseMappingSettingsElement_row_orientation exampleBuilder "Row"
    [("orientation", " Vertical\n")] [] {}
    (LegacyControllerSettingsLayoutContainer.new .VERTICAL) (by decide)

/-- C4: a `group` element adds one group to the current container, with the
`label` attribute as its label and with disposition `VERTICAL` (widget
orientation `HORIZONTAL`), whatever its attributes are; the `orientation`
attribute is not read: two `group` elements that differ in their attributes
other than `label` give the same result. -/
theorem parseMappingSettingsElement_group_vertical (b : SettingBuilder σ) (tag : String)
    (attrs : List (String × String)) (kids : List QDomNode)
    (mapping : LegacyControllerMapping σ) (layout : LegacyControllerSettingsLayoutContainer σ)
    (hgroup : toLower tag = "group") :
    (∃ elements : List (LegacyControllerSettingsLayoutElement σ),
      (parseMappingSettingsElement.body b (.element tag attrs kids) mapping layout).2 =
        { layout with
          m_elements := layout.m_elements ++
            [.Group ((QDomNode.element tag attrs kids).attributeValue "label")
              .VERTICAL .HORIZONTAL elements] }) ∧
      ∀ attrs' : List (String × String),
        (QDomNode.element tag attrs' kids).attributeValue "label" =
            (QDomNode.element tag attrs kids).attributeValue "label" →
          parseMappingSettingsElement.body b (.element tag attrs' kids) mapping layout =
            parseMappingSettingsElement.body b (.element tag attrs kids) mapping layout := by
  have h1 : toLower tag ≠ "option" := by rw [hgroup]; decide
  have h2 : toLower tag ≠ "row" := by rw [hgroup]; decide
  refine ⟨⟨layoutNodesOf b .VERTICAL .HORIZONTAL kids, ?_⟩, ?_⟩
  · simp [body_eq, withElements, layoutNodeOf, h1, h2, hgroup]
  · intro attrs' hlabel
    simp [body_eq, withElements, withSettings, layoutNodeOf, settingsOf, h1, h2, hgroup, hlabel]

theorem parseMappingSettingsElement_group_vertical_witness :
    (∃ elements : List (LegacyControllerSettingsLayoutElement String),
      (parseMappingSettingsElement.body exampleBuilder
          (.element "group" [("orientation", "horizontal"), ("label", "Pads")] []) {}
          (LegacyControllerSettingsLayoutContainer.new .VERTICAL)).2 =
        { (LegacyControllerSettingsLayoutContainer.new .VERTICAL :
            LegacyControllerSettingsLayoutContainer String) with
          m_elements :=
            (LegacyControllerSettingsLayoutContainer.new .VERTICAL :
              LegacyControllerSettingsLayoutContainer String).m_elements ++
            [.Group ((QDomNode.element "group"
                [("orientation", "horizontal"), ("label", "Pads")] []).attributeValue "label")
              .VERTICAL .HORIZONTAL elements] }) ∧
      ∀ attrs' : List (String × String),
        (QDomNode.element "group" attrs' []).attributeValue "label" =
            (QDomNode.element "group"
              [("orientation", "horizontal"), ("label", "Pads")] []).attributeValue "label" →
          parseMappingSettingsElement.body exampleBuilder (.element "group" attrs' []) {}
              (LegacyControllerSettingsLayoutContainer.new .VERTICAL) =
            parseMappingSettingsElement.body exampleBuilder
              (.element "group" [("orientation", "horizontal"), ("label", "Pads")] []) {}
              (LegacyControllerSettingsLayoutContainer.new .VERTICAL) :=
  parseMappingSettingsElement_group_vertical exampleBuilder "group"
    [("orientation", "horizontal"), ("label", "Pads")] [] {}
    (LegacyControllerSettingsLayoutContainer.new .VERTICAL) (by decide)

theorem unsupportedElement_pruneUnsupported (n : QDomNode) :
    unsupportedElement (pruneUnsupported n) = unsupportedElement n := by
  cases n with
  | text _ => rfl
  | element tag attrs kids =>
    by_cases h : toLower tag = "row" ∨ toLower tag = "group" <;>
      simp [pruneUnsupported, h, unsupportedElement]

theorem pruneUnsupportedNodes_supported (ns : List QDomNode) :
    ∀ n ∈ pruneUnsupportedNodes ns, unsupportedElement n = false := by
  induction ns with
  | nil => simp [pruneUnsupportedNodes]
  | cons a ns ih =>
    intro n hn
    cases ha : unsupportedElement a with
    | true =>
      simp only [pruneUnsupportedNodes, ha, if_true] at hn
      exact ih n hn
    | false =>
      simp only [pruneUnsupportedNodes, ha, Bool.false_eq_true, if_false,
        List.mem_cons] at hn
      rcases hn with rfl | hn
      · rw [unsupportedElement_pruneUnsupported]; exact ha
      · exact ih n hn

/-- C5: removing from a settings element tree every child element whose
lower-cased tag is none of `option`, `row`, `group` (with its subtree, at any
depth reached through `row` and `group` elements) changes neither the layout
tree nor the settings appended to the flat collection; no unsupported element
is left among the siblings that remain. -/
theorem parseMappingSettingsElement_withoutUnsupported (b : SettingBuilder σ)
    (current : QDomNode) (mapping : LegacyControllerMapping σ)
    (layout : LegacyControllerSettingsLayoutContainer σ) :
    parseMappingSettingsElement b (withoutUnsupported current) mapping layout =
        parseMappingSettingsElement b current mapping layout ∧
      ∀ ns : List QDomNode, ∀ n ∈ pruneUnsupportedNodes ns, unsupportedElement n = false := by
  refine ⟨?_, pruneUnsupportedNodes_supported⟩
  cases current with
  | text _ => rfl
  | element tag attrs kids =>
    simp [parseMappingSettingsElement, withoutUnsupported, QDomNode.childNodes, loop_eq,
      pruneUnsupportedNodes_stands_for]

/-- C6: an `option` element for which the factory returns no setting, or a
setting that is not valid, leaves the container and the mapping as they are, in
the one case as in the other, and the loop handles its siblings as if the
element were absent. -/
theorem parseMappingSettingsElement_rejected_option (b : SettingBuilder σ)
    (element : QDomNode) (before after : List QDomNode)
    (mapping : LegacyControllerMapping σ) (layout : LegacyControllerSettingsLayoutContainer σ)
    (hrejected : rejectedOption b element = true) :
    parseMappingSettingsElement.body b element mapping layout = (mapping, layout) ∧
      parseMappingSettingsElement.loop b (before ++ element :: after) mapping layout =
        parseMappingSettingsElement.loop b (before ++ after) mapping layout := by
  have hbody : ∀ m l, parseMappingSettingsElement.body b element m l = (m, l) := by
    intro m l
    cases element with
    | text _ => simp [parseMappingSettingsElement.body]
    | element tag attrs kids =>
      simp only [rejectedOption, QDomNode.isElement, QDomNode.tagName, Bool.true_and,
        Bool.and_eq_true, beq_iff_eq] at hrejected
      obtain ⟨htag, hbuild⟩ := hrejected
      simp only [parseMappingSettingsElement.body, htag, if_true]
      cases hb : b.build (.element tag attrs kids) with
      | none => rfl
      | some s => simp [hb] at hbuild; simp [hbuild]
  refine ⟨hbody mapping layout, ?_⟩
  rw [loop_append, loop_append, loop_cons, hbody]

theorem parseMappingSettingsElement_rejected_option_witness :
    parseMappingSettingsElement.body exampleBuilder
        (.element "option" [("variable", "invalid")] []) {}
        (LegacyControllerSettingsLayoutContainer.new .VERTICAL) =
        ({}, LegacyControllerSettingsLayoutContainer.new .VERTICAL) ∧
      parseMappingSettingsElement.loop exampleBuilder
          ([.element "option" [("variable", "a")] []] ++
            .element "option" [("variable", "invalid")] [] ::
              [.element "option" [("variable", "b")] []]) {}
          (LegacyControllerSettingsLayoutContainer.new .VERTICAL) =
        parseMappingSettingsElement.loop exampleBuilder
          ([.element "option" [("variable", "a")] []] ++
            [.element "option" [("variable", "b")] []]) {}
          (LegacyControllerSettingsLayoutContainer.new .VERTICAL) :=
  parseMappingSettingsElement_rejected_option exampleBuilder
    (.element "option" [("variable", "invalid")] [])
    [.element "option" [("variable", "a")] []] [.element "option" [("variable", "b")] []] {}
    (LegacyControllerSettingsLayoutContainer.new .VERTICAL) (by decide)

/-- C7: the children that `parseMappingSettingsElement` adds to a container are
the layout nodes of the accepted child elements (`option`, `row`, `group`), in
the document order of these elements, and so are the children of every container
below it; the settings it appends to the flat collection are those of the
accepted `option` elements in depth-first document order, the options below a
`row` or `group` before those of any later sibling. -/
theorem parseMappingSettingsElement_document_order (b : SettingBuilder σ)
    (current : QDomNode) (mapping : LegacyControllerMapping σ)
    (layout : LegacyControllerSettingsLayoutContainer σ) :
    parseMappingSettingsElement b current mapping layout =
        ({ mapping with
            settings := mapping.settings ++ current.childNodes.flatMap (settingsOf b) },
          { layout with
            m_elements := layout.m_elements ++
              current.childNodes.filterMap
                (layoutNodeOf b layout.m_disposition layout.m_widgetOrientation) }) ∧
      (∀ (d w : Disposition) (ns : List QDomNode),
        layoutNodesOf b d w ns = ns.filterMap (layoutNodeOf b d w)) ∧
      ∀ ns : List QDomNode, settingsOfNodes b ns = ns.flatMap (settingsOf b) := by
  refine ⟨?_, layoutNodesOf_eq_filterMap b, settingsOfNodes_eq_flatMap b⟩
  simp [parseMappingSettingsElement, loop_eq, withSettings, withElements,
    layoutNodesOf_eq_filterMap, settingsOfNodes_eq_flatMap]


end ParserLemmas

/-! ## Lemmas on the serializer and the loader -/

section SerializerLemmas

variable {σ : Type}

theorem buildRootWithScripts_loop_eq (scripts : List ScriptFileInfo) :
    ∀ (tag : String) (attrs : List (String × String)) (kids : List QDomNode),
      buildRootWithScripts.loop scripts (.element tag attrs kids) =
        .element tag attrs
          (kids ++ (scripts.filter fun s => !s.builtin).map scriptFileElement) := by
  induction scripts with
  | nil => intro tag attrs kids; simp [buildRootWithScripts.loop]
  | cons script rest ih =>
    intro tag attrs kids
    cases hb : script.builtin <;>
      simp [buildRootWithScripts.loop, hb, ih, QDomNode.appendChild, QDomNode.setAttribute,
        List.lookup, scriptFileElement]

theorem buildRootWithScripts_eq (v : String) (mapping : LegacyControllerMapping σ) :
    buildRootWithScripts v mapping =
      { documentElement := some (.element "MixxxControllerPreset"
          [("schemaVersion", v), ("mixxxVersion", mapping.mixxxVersion)]
          [.element "info" [] (infoChildren mapping),
            .element "controller" [("id", rootDeviceName mapping.deviceId)]
              [.element "scriptfiles" []
                ((mapping.scriptFiles.filter fun s => !s.builtin).map scriptFileElement)]]) } := by
  simp only [buildRootWithScripts, blankDocument, buildRootWithScripts_loop_eq, infoChildren,
    addTextTag]
  by_cases h1 : mapping.name.length > 0 <;> by_cases h2 : mapping.author.length > 0 <;>
    by_cases h3 : mapping.description.length > 0 <;>
    by_cases h4 : mapping.forumlink.length > 0 <;>
    by_cases h5 : mapping.wikilink.length > 0 <;>
    simp [h1, h2, h3, h4, h5, QDomNode.appendChild, QDomNode.setAttribute, List.lookup,
      List.filter]


theorem controllerId_buildRootWithScripts (v : String) (mapping : LegacyControllerMapping σ) :
    controllerId (buildRootWithScripts v mapping) = rootDeviceName mapping.deviceId := by
  simp [buildRootWithScripts_eq, controllerId, getControllerNode, QDomNode.firstChildElement,
    QDomNode.childNodes, QDomNode.isElement, QDomNode.tagName, QDomNode.attributeValue,
    List.lookup]

theorem scriptFileNodes_buildRootWithScripts (v : String)
    (mapping : LegacyControllerMapping σ) :
    scriptFileNodes (buildRootWithScripts v mapping) =
      (mapping.scriptFiles.filter fun s => !s.builtin).map scriptFileElement := by
  simp [buildRootWithScripts_eq, scriptFileNodes, getControllerNode,
    QDomNode.firstChildElement, QDomNode.childNodes, QDomNode.isElement, QDomNode.tagName]

theorem dropWhile_eq_self_of_head {α : Type} (p : α → Bool) (l : List α)
    (h : ∀ a, l.head? = some a → p a = false) : l.dropWhile p = l := by
  cases l with
  | nil => rfl
  | cons a l => simp [List.dropWhile, h a rfl]

theorem dropWhile_append_of_all {α : Type} (p : α → Bool) (xs ys : List α)
    (h : ∀ a ∈ xs, p a = true) : (xs ++ ys).dropWhile p = ys.dropWhile p := by
  induction xs with
  | nil => rfl
  | cons a xs ih =>
    have ha : p a = true := h a (List.mem_cons_self a xs)
    simp [List.dropWhile, ha, ih fun x hx => h x (List.mem_cons_of_mem a hx)]

theorem rootDeviceName_append (model delimiter serial : String)
    (hserial : serial.data ≠ [] ∧ ∀ c ∈ serial.data, isSpace c = false)
    (hdelimiter : delimiter.data ≠ [] ∧ ∀ c ∈ delimiter.data, isSpace c = true)
    (hmodel : ∀ c, model.data.getLast? = some c → isSpace c = false) :
    rootDeviceName (model ++ delimiter ++ serial) = model := by
  obtain ⟨hne, hall⟩ := hserial
  obtain ⟨hdne, hdall⟩ := hdelimiter
  have h1 : (serial.data.reverse ++ (delimiter.data.reverse ++ model.data.reverse)).dropWhile
      isSpace = serial.data.reverse ++ (delimiter.data.reverse ++ model.data.reverse) := by
    apply dropWhile_eq_self_of_head
    intro a ha
    cases hs : serial.data.reverse with
    | nil => simp at hs; exact absurd hs hne
    | cons c cs =>
      rw [hs] at ha
      simp at ha
      subst ha
      have : c ∈ serial.data := by
        have : c ∈ serial.data.reverse := by rw [hs]; exact List.mem_cons_self c cs
        simpa using this
      exact hall c this
  have h2 : (serial.data.reverse ++ (delimiter.data.reverse ++ model.data.reverse)).dropWhile
      (fun c => !isSpace c) = (delimiter.data.reverse ++ model.data.reverse).dropWhile
      (fun c => !isSpace c) := by
    apply dropWhile_append_of_all
    intro a ha
    simp [hall a (by simpa using ha)]
  have h3 : (delimiter.data.reverse ++ model.data.reverse).dropWhile (fun c => !isSpace c) =
      delimiter.data.reverse ++ model.data.reverse := by
    apply dropWhile_eq_self_of_head
    intro a ha
    cases hd : delimiter.data.reverse with
    | nil => simp at hd; exact absurd hd hdne
    | cons c cs =>
      rw [hd] at ha
      simp at ha
      subst ha
      have hc : isSpace c = true := hdall c (by
        have : c ∈ delimiter.data.reverse := by rw [hd]; exact List.mem_cons_self c cs
        simpa using this)
      simp [hc]
  have h4 : (delimiter.data.reverse ++ model.data.reverse).dropWhile isSpace =
      model.data.reverse.dropWhile isSpace := by
    apply dropWhile_append_of_all
    intro a ha
    exact hdall a (by simpa using ha)
  have h5 : model.data.reverse.dropWhile isSpace = model.data.reverse := by
    apply dropWhile_eq_self_of_head
    intro a ha
    apply hmodel a
    simpa [List.head?_reverse] using ha
  simp only [rootDeviceName, String.data_append, List.reverse_append, List.append_assoc, h1, h2,
    h3, h4, h5, List.reverse_reverse]


theorem eq_empty_of_length (s : String) (h : ¬ s.length > 0) : s = "" := by
  have h0 : s.data.length = 0 := by
    have : s.length = s.data.length := rfl
    omega
  have hd : s.data = [] := List.length_eq_zero.mp h0
  exact String.ext hd

theorem textOfChild_infoChildren (mapping : LegacyControllerMapping σ) :
    textOfChild (.element "info" [] (infoChildren mapping)) "name" = mapping.name ∧
    textOfChild (.element "info" [] (infoChildren mapping)) "author" = mapping.author ∧
    textOfChild (.element "info" [] (infoChildren mapping)) "description" =
      mapping.description ∧
    textOfChild (.element "info" [] (infoChildren mapping)) "forums" = mapping.forumlink ∧
    textOfChild (.element "info" [] (infoChildren mapping)) "wiki" = mapping.wikilink ∧
    textOfChild (.element "info" [] (infoChildren mapping)) "manual" = "" := by
  have e1 := eq_empty_of_length mapping.name
  have e2 := eq_empty_of_length mapping.author
  have e3 := eq_empty_of_length mapping.description
  have e4 := eq_empty_of_length mapping.forumlink
  have e5 := eq_empty_of_length mapping.wikilink
  by_cases h1 : mapping.name.length > 0 <;> by_cases h2 : mapping.author.length > 0 <;>
    by_cases h3 : mapping.description.length > 0 <;>
    by_cases h4 : mapping.forumlink.length > 0 <;>
    by_cases h5 : mapping.wikilink.length > 0 <;>
    simp [textOfChild, infoChildren, h1, h2, h3, h4, h5, List.filter, QDomNode.firstChildElement,
      QDomNode.childNodes, QDomNode.isElement, QDomNode.tagName, QDomNode.elementText,
      QDomNode.textOfNodes, e1, e2, e3, e4, e5]


theorem addScriptFilesToMapping_loop_scriptFileElements (fileExists : String → Bool)
    (systemMappingsPath : String) (scripts : List ScriptFileInfo) :
    ∀ mapping : LegacyControllerMapping σ,
      addScriptFilesToMapping.loop fileExists systemMappingsPath
          (scripts.map scriptFileElement) mapping =
        { mapping with
          scriptFiles := mapping.scriptFiles ++ scripts.map fun s =>
            { name := s.name, functionPrefix := s.functionPrefix,
              file := findScriptFile fileExists mapping s.name systemMappingsPath,
              builtin := false } } := by
  induction scripts with
  | nil => intro mapping; simp [addScriptFilesToMapping.loop]
  | cons script rest ih =>
    intro mapping
    simp [addScriptFilesToMapping.loop, scriptFileElement, QDomNode.isElement,
      QDomNode.tagName, QDomNode.attributeValue, List.lookup, ih,
      LegacyControllerMapping.addScriptFile, findScriptFile]

theorem loadMetadataAndScripts_buildRootWithScripts (v required : String)
    (fileExists : String → Bool) (systemMappingsPath : String)
    (mapping : LegacyControllerMapping σ) :
    (loadMetadataAndScripts required fileExists systemMappingsPath
        (buildRootWithScripts v mapping) : LegacyControllerMapping σ) =
      { mixxxVersion := mapping.mixxxVersion
        schemaVersion := v
        name := mapping.name
        author := mapping.author
        description := mapping.description
        forumlink := mapping.forumlink
        manualPage := ""
        wikilink := mapping.wikilink
        deviceId := rootDeviceName mapping.deviceId
        dirPath := ""
        scriptFiles :=
          { name := required, functionPrefix := "",
            file := findScriptFile fileExists ({} : LegacyControllerMapping σ) required
              systemMappingsPath,
            builtin := true } ::
          (mapping.scriptFiles.filter fun s => !s.builtin).map fun s =>
            { name := s.name, functionPrefix := s.functionPrefix,
              file := findScriptFile fileExists ({} : LegacyControllerMapping σ) s.name
                systemMappingsPath,
              builtin := false }
        settings := []
        settingLayout := none } := by
  obtain ⟨t1, t2, t3, t4, t5, t6⟩ := textOfChild_infoChildren mapping
  simp [loadMetadataAndScripts, buildRootWithScripts_eq, parseMappingInfo,
    addScriptFilesToMapping, getControllerNode, QDomNode.firstChildElement,
    QDomNode.childNodes, QDomNode.isElement, QDomNode.tagName, QDomNode.attributeValue,
    List.lookup, t1, t2, t3, t4, t5, t6, addScriptFilesToMapping_loop_scriptFileElements,
    LegacyControllerMapping.addScriptFile, LegacyControllerMapping.setDeviceId,
    LegacyControllerMapping.setMixxxVersion, LegacyControllerMapping.setSchemaVersion,
    LegacyControllerMapping.setName, LegacyControllerMapping.setAuthor,
    LegacyControllerMapping.setDescription, LegacyControllerMapping.setForumLink,
    LegacyControllerMapping.setManualPage, LegacyControllerMapping.setWikiLink, findScriptFile]


theorem infoText_buildRootWithScripts (v tag : String) (mapping : LegacyControllerMapping σ) :
    infoText (buildRootWithScripts v mapping) tag =
      textOfChild (.element "info" [] (infoChildren mapping)) tag := by
  simp [buildRootWithScripts_eq, infoText, textOfChild, QDomNode.firstChildElement,
    QDomNode.childNodes, QDomNode.isElement, QDomNode.tagName]

theorem serializeLoadSerialize_eq (v required : String) (fileExists : String → Bool)
    (systemMappingsPath : String) (mapping : LegacyControllerMapping σ) :
    serializeLoadSerialize v required fileExists systemMappingsPath mapping =
      buildRootWithScripts v { mapping with deviceId := rootDeviceName mapping.deviceId } := by
  unfold serializeLoadSerialize
  rw [loadMetadataAndScripts_buildRootWithScripts]
  simp [buildRootWithScripts_eq, infoChildren, List.filter_map, Function.comp_def,
    scriptFileElement, List.map_map]

/-- C8 (as amended): serializing a mapping, loading the metadata and the script
files of the document into a fresh mapping and serializing that mapping again
gives the serialization of the mapping whose device id has been stripped: the
second document has the name, author, description, forum link and wiki link of
the mapping and the `file` elements of its non-builtin script entries in their
order; its `controller` id is the device id stripped twice. -/
theorem serializeLoadSerialize_reproduces (v required : String)
    (fileExists : String → Bool) (systemMappingsPath : String)
    (mapping : LegacyControllerMapping σ) :
    serializeLoadSerialize v required fileExists systemMappingsPath mapping =
        buildRootWithScripts v { mapping with deviceId := rootDeviceName mapping.deviceId } ∧
      infoText (serializeLoadSerialize v required fileExists systemMappingsPath mapping) "name" =
        mapping.name ∧
      infoText (serializeLoadSerialize v required fileExists systemMappingsPath mapping) "author" =
        mapping.author ∧
      infoText (serializeLoadSerialize v required fileExists systemMappingsPath mapping)
        "description" = mapping.description ∧
      infoText (serializeLoadSerialize v required fileExists systemMappingsPath mapping) "forums" =
        mapping.forumlink ∧
      infoText (serializeLoadSerialize v required fileExists systemMappingsPath mapping) "wiki" =
        mapping.wikilink ∧
      scriptFileNodes (serializeLoadSerialize v required fileExists systemMappingsPath mapping) =
        (mapping.scriptFiles.filter fun s => !s.builtin).map (fun s =>
          QDomNode.element "file"
            [("filename", s.name), ("functionprefix", s.functionPrefix)] []) ∧
      controllerId (serializeLoadSerialize v required fileExists systemMappingsPath mapping) =
        rootDeviceName (rootDeviceName mapping.deviceId) := by
  obtain ⟨t1, t2, t3, t4, t5, _⟩ :=
    textOfChild_infoChildren { mapping with deviceId := rootDeviceName mapping.deviceId }
  rw [serializeLoadSerialize_eq]
  refine ⟨rfl, ?_, ?_, ?_, ?_, ?_, ?_, ?_⟩
  · rw [infoText_buildRootWithScripts, t1]
  · rw [infoText_buildRootWithScripts, t2]
  · rw [infoText_buildRootWithScripts, t3]
  · rw [infoText_buildRootWithScripts, t4]
  · rw [infoText_buildRootWithScripts, t5]
  · rw [scriptFileNodes_buildRootWithScripts]; rfl
  · rw [controllerId_buildRootWithScripts]

/-- C8 (counterexample): for the device id "Generic MIDI Controller 0A1B2C" the
first serialization has the id "Generic MIDI Controller", which is the device
id stripped of its serial, and the second serialization has the id
"Generic MIDI": the round trip does not reproduce the stripped device id. -/
theorem serializeLoadSerialize_device_id_counterexample :
    rootDeviceName exampleMapping.deviceId = "Generic MIDI Controller" ∧
      controllerId (buildRootWithScripts "1" exampleMapping) = "Generic MIDI Controller" ∧
      controllerId (serializeLoadSerialize "1" "common-controller-scripts.js"
        (fun _ => false) "/usr/share/mixxx/controllers" exampleMapping) = "Generic MIDI" ∧
      controllerId (serializeLoadSerialize "1" "common-controller-scripts.js"
        (fun _ => false) "/usr/share/mixxx/controllers" exampleMapping) ≠
        rootDeviceName exampleMapping.deviceId := by
  decide

/-- C9: the `file` elements under `controller/scriptfiles` of the document that
`buildRootWithScripts` returns are those of the script entries of the mapping
that are not builtin, one element per entry, in the order of the collection,
with `filename` the name of the entry and `functionprefix` its function prefix;
a builtin entry gives no element. -/
theorem buildRootWithScripts_file_elements (v : String) (mapping : LegacyControllerMapping σ) :
    scriptFileNodes (buildRootWithScripts v mapping) =
      (mapping.scriptFiles.filter fun s => !s.builtin).map fun s =>
        QDomNode.element "file"
          [("filename", s.name), ("functionprefix", s.functionPrefix)] [] := by
  rw [scriptFileNodes_buildRootWithScripts]; rfl

/-- C10: the `id` attribute of the `controller` element is `rootDeviceName` of the
device id; when the device id is a model name, whitespace and a serial number
(a last token without whitespace), it is the model name: the last
whitespace-delimited token is removed.  For the device id
"Generic MIDI Controller 0A1B2C" the attribute is "Generic MIDI Controller". -/
theorem buildRootWithScripts_controller_id (v : String) (mapping : LegacyControllerMapping σ)
    (model delimiter serial : String)
    (hid : mapping.deviceId = model ++ delimiter ++ serial)
    (hserial : serial.data ≠ [] ∧ ∀ c ∈ serial.data, isSpace c = false)
    (hdelimiter : delimiter.data ≠ [] ∧ ∀ c ∈ delimiter.data, isSpace c = true)
    (hmodel : ∀ c ∈ model.data.getLast?, isSpace c = false) :
    controllerId (buildRootWithScripts v mapping) = rootDeviceName mapping.deviceId ∧
      controllerId (buildRootWithScripts v mapping) = model := by
  refine ⟨controllerId_buildRootWithScripts v mapping, ?_⟩
  rw [controllerId_buildRootWithScripts, hid]
  exact rootDeviceName_append model delimiter serial hserial hdelimiter
    (fun c hc => hmodel c hc)

theorem buildRootWithScripts_controller_id_witness :
    controllerId (buildRootWithScripts "1" exampleMapping) =
        rootDeviceName exampleMapping.deviceId ∧
      controllerId (buildRootWithScripts "1" exampleMapping) = "Generic MIDI Controller" :=
  buildRootWithScripts_controller_id "1" exampleMapping "Generic MIDI Controller" " " "0A1B2C"
    (by decide) (by decide) (by decide) (by decide)

end SerializerLemmas

/-! ## The serialized document, the script files and `loadMapping` -/

section DocumentLemmas

variable {σ : Type}

/-- C11: the children of the `info` element that `buildRootWithScripts` produces
are one text element for each of name, author, description, forumLink and
wikiLink that is not empty, named `name`, `author`, `description`, `forums`,
`wiki`, in this order, with the value of the field as text; an empty field
gives no element, and manualPage and deviceId give none whatever they are. -/
theorem buildRootWithScripts_info_children (v : String) (mapping : LegacyControllerMapping σ) :
    infoNodes (buildRootWithScripts v mapping) =
        ([("name", mapping.name), ("author", mapping.author),
            ("description", mapping.description), ("forums", mapping.forumlink),
            ("wiki", mapping.wikilink)].filter fun p => p.2.length > 0).map
          (fun p => QDomNode.element p.1 [] [QDomNode.text p.2]) ∧
      ∀ manualPage deviceId : String,
        infoNodes (buildRootWithScripts v
            { mapping with manualPage := manualPage, deviceId := deviceId }) =
          infoNodes (buildRootWithScripts v mapping) := by
  constructor
  · simp [buildRootWithScripts_eq, infoNodes, infoChildren, QDomNode.firstChildElement,
      QDomNode.childNodes, QDomNode.isElement, QDomNode.tagName]
  · intro manualPage deviceId
    simp [buildRootWithScripts_eq, infoNodes, infoChildren, QDomNode.firstChildElement,
      QDomNode.childNodes, QDomNode.isElement, QDomNode.tagName]

/-- C12: the document that `buildRootWithScripts` returns has the root element
`MixxxControllerPreset` with the attributes `schemaVersion` and `mixxxVersion`,
the latter being the application version of the mapping; its children are, in
this order, one `info` element and one `controller` element, and the `controller`
element contains one `scriptfiles` element. -/
theorem buildRootWithScripts_document_shape (v : String)
    (mapping : LegacyControllerMapping σ) :
    ∃ (infoKids files : List QDomNode) (id : String),
      (buildRootWithScripts v mapping).documentElement =
        some (.element "MixxxControllerPreset"
          [("schemaVersion", v), ("mixxxVersion", mapping.mixxxVersion)]
          [.element "info" [] infoKids,
            .element "controller" [("id", id)] [.element "scriptfiles" [] files]]) :=
  ⟨infoChildren mapping,
    (mapping.scriptFiles.filter fun s => !s.builtin).map scriptFileElement,
    rootDeviceName mapping.deviceId, by rw [buildRootWithScripts_eq]⟩

theorem addScriptFilesToMapping_loop_eq (fileExists : String → Bool)
    (systemMappingsPath : String) (nodes : List QDomNode) :
    ∀ mapping : LegacyControllerMapping σ,
      addScriptFilesToMapping.loop fileExists systemMappingsPath nodes mapping =
        { mapping with
          scriptFiles := mapping.scriptFiles ++
            (nodes.filter fun n => n.isElement && n.tagName == "file").map fun f =>
              { name := f.attributeValue "filename" "",
                functionPrefix := f.attributeValue "functionprefix" "",
                file := findScriptFile fileExists mapping (f.attributeValue "filename" "")
                  systemMappingsPath,
                builtin := false } } := by
  induction nodes with
  | nil => intro mapping; simp [addScriptFilesToMapping.loop]
  | cons n ns ih =>
    intro mapping
    by_cases h : (n.isElement && n.tagName == "file") = true
    · simp [addScriptFilesToMapping.loop, h, ih, LegacyControllerMapping.addScriptFile,
        findScriptFile]
    · simp [addScriptFilesToMapping.loop, h, ih]

/-- C13: for a `controller` element and a mapping whose script-file collection is
empty, after `addScriptFilesToMapping` the first entry is the required script
with an empty function prefix and `builtin = true`; the other entries are, in
document order, one per `file` child of the first `scriptfiles` child, with the
`filename` and `functionprefix` attributes (the empty string for an absent
attribute) and `builtin = false`; the device id is the `id` attribute (the empty
string when absent). -/
theorem addScriptFilesToMapping_entries (required : String) (fileExists : String → Bool)
    (controller : QDomNode) (mapping : LegacyControllerMapping σ)
    (systemMappingsPath : String) (hempty : mapping.scriptFiles = []) :
    (addScriptFilesToMapping required fileExists (some controller) mapping
        systemMappingsPath).scriptFiles =
        { name := required, functionPrefix := "",
          file := findScriptFile fileExists mapping required systemMappingsPath,
          builtin := true } ::
        (scriptFileChildren controller).map (fun f =>
          { name := f.attributeValue "filename" "",
            functionPrefix := f.attributeValue "functionprefix" "",
            file := findScriptFile fileExists mapping (f.attributeValue "filename" "")
              systemMappingsPath,
            builtin := false }) ∧
      (addScriptFilesToMapping required fileExists (some controller) mapping
        systemMappingsPath).deviceId = controller.attributeValue "id" "" := by
  cases hs : controller.firstChildElement "scriptfiles" <;>
    simp [addScriptFilesToMapping, addScriptFilesToMapping_loop_eq, scriptFileChildren, hs,
      hempty, LegacyControllerMapping.addScriptFile, LegacyControllerMapping.setDeviceId,
      findScriptFile]

theorem addScriptFilesToMapping_entries_witness :
    (addScriptFilesToMapping "common-controller-scripts.js" (fun _ => false)
        (some (.element "controller" [("id", "Generic MIDI Controller")]
          [.element "scriptfiles" []
            [.element "file" [("filename", "a.js"), ("functionprefix", "A")] [],
              .text " ", .element "file" [("filename", "b.js")] []]]))
        ({} : LegacyControllerMapping String) "/sys").scriptFiles =
        { name := "common-controller-scripts.js", functionPrefix := "",
          file := findScriptFile (fun _ => false) ({} : LegacyControllerMapping String)
            "common-controller-scripts.js" "/sys",
          builtin := true } ::
        (scriptFileChildren (.element "controller" [("id", "Generic MIDI Controller")]
          [.element "scriptfiles" []
            [.element "file" [("filename", "a.js"), ("functionprefix", "A")] [],
              .text " ", .element "file" [("filename", "b.js")] []]])).map (fun f =>
          { name := f.attributeValue "filename" "",
            functionPrefix := f.attributeValue "functionprefix" "",
            file := findScriptFile (fun _ => false) ({} : LegacyControllerMapping String)
              (f.attributeValue "filename" "") "/sys",
            builtin := false }) ∧
      (addScriptFilesToMapping "common-controller-scripts.js" (fun _ => false)
        (some (.element "controller" [("id", "Generic MIDI Controller")]
          [.element "scriptfiles" []
            [.element "file" [("filename", "a.js"), ("functionprefix", "A")] [],
              .text " ", .element "file" [("filename", "b.js")] []]]))
        ({} : LegacyControllerMapping String) "/sys").deviceId =
        (QDomNode.element "controller" [("id", "Generic MIDI Controller")]
          [.element "scriptfiles" []
            [.element "file" [("filename", "a.js"), ("functionprefix", "A")] [],
              .text " ", .element "file" [("filename", "b.js")] []]]).attributeValue "id" "" :=
  addScriptFilesToMapping_entries "common-controller-scripts.js" (fun _ => false)
    (.element "controller" [("id", "Generic MIDI Controller")]
      [.element "scriptfiles" []
        [.element "file" [("filename", "a.js"), ("functionprefix", "A")] [],
          .text " ", .element "file" [("filename", "b.js")] []]])
    {} "/sys" rfl

/-- C14 (as amended): `findScriptFile` returns the path that
`QDir::absoluteFilePath` gives for the file name in the directory of the mapping
when a file exists at that path, and otherwise the path that it gives in the
system mappings directory, whether or not that file exists; it returns no other
path.  For a file name that is not empty and not absolute these are
`<directory>/<filename>`; an absolute file name is returned as it is. -/
theorem findScriptFile_absoluteFilePath (fileExists : String → Bool)
    (mapping : LegacyControllerMapping σ) (filename systemMappingsPath : String) :
    (fileExists (absoluteFilePath mapping.dirPath filename) = true →
        findScriptFile fileExists mapping filename systemMappingsPath =
          absoluteFilePath mapping.dirPath filename) ∧
      (fileExists (absoluteFilePath mapping.dirPath filename) = false →
        findScriptFile fileExists mapping filename systemMappingsPath =
          absoluteFilePath systemMappingsPath filename) ∧
      (findScriptFile fileExists mapping filename systemMappingsPath =
          absoluteFilePath mapping.dirPath filename ∨
        findScriptFile fileExists mapping filename systemMappingsPath =
          absoluteFilePath systemMappingsPath filename) ∧
      (∀ dir : String, filename.data.head? ≠ some '/' → filename.data ≠ [] →
        dir.data.getLast? ≠ some '/' → absoluteFilePath dir filename = dir ++ "/" ++ filename) ∧
      (filename.data.head? = some '/' →
        findScriptFile fileExists mapping filename systemMappingsPath = filename) := by
  refine ⟨?_, ?_, ?_, ?_, ?_⟩
  · intro h; simp [findScriptFile, h]
  · intro h; simp [findScriptFile, h]
  · cases h : fileExists (absoluteFilePath mapping.dirPath filename) <;>
      simp [findScriptFile, h]
  · intro dir h1 h2 h3
    simp [absoluteFilePath, h1, h2, h3]
  · intro h
    simp [findScriptFile, absoluteFilePath, h]

/-- C14 (counterexample): for the absolute file name "/abs/x.js", with no file at
that path, `findScriptFile` returns "/abs/x.js", which is neither
`<mapping directory>/<filename>` nor `<system mappings directory>/<filename>`;
for an empty file name (a `file` element without `filename` attribute) it
returns the system mappings directory itself. -/
theorem findScriptFile_absolute_counterexample :
    findScriptFile (fun _ => false)
        ({ dirPath := "/home/user/controllers" } : LegacyControllerMapping String)
        "/abs/x.js" "/usr/share/mixxx/controllers" = "/abs/x.js" ∧
      "/abs/x.js" ≠ "/home/user/controllers" ++ "/" ++ "/abs/x.js" ∧
      "/abs/x.js" ≠ "/usr/share/mixxx/controllers" ++ "/" ++ "/abs/x.js" ∧
      findScriptFile (fun _ => false)
        ({ dirPath := "/home/user/controllers" } : LegacyControllerMapping String)
        "" "/usr/share/mixxx/controllers" = "/usr/share/mixxx/controllers" := by
  decide

/-- C15: `loadMapping` returns the null pointer, and calls no handler, when the
path of the file is empty, when the file does not exist, when it is not
readable, and when its name ends (letter case ignored) with none of the three
extensions; a mapping that it returns is marked not modified; and for a readable
file with a handler, the handler is called and its mapping is returned. -/
theorem loadMapping_absent_or_clean (env : LoadEnvironment σ) (mappingFile : QFileInfo)
    (systemMappingsPath : String) :
    ((mappingFile.path.isEmpty = true ∨ mappingFile.fileExists = false ∨
        mappingFile.isReadable = false ∨
        (endsWithCaseInsensitive mappingFile.fileName env.MIDI_MAPPING_EXTENSION = false ∧
          endsWithCaseInsensitive mappingFile.fileName env.HID_MAPPING_EXTENSION = false ∧
          endsWithCaseInsensitive mappingFile.fileName env.BULK_MAPPING_EXTENSION = false)) →
        loadMapping env mappingFile systemMappingsPath =
          { invoked := none, pMapping := none }) ∧
      (∀ m, (loadMapping env mappingFile systemMappingsPath).pMapping = some m →
        m.dirty = false) ∧
      ∀ pHandler, mappingFile.path.isEmpty = false → mappingFile.fileExists = true →
        mappingFile.isReadable = true →
        selectHandler env mappingFile.fileName = some pHandler →
        loadMapping env mappingFile systemMappingsPath =
          { invoked := some pHandler,
            pMapping := (env.load pHandler mappingFile.absoluteFilePath
              systemMappingsPath).map fun m => m.setDirty false } := by
  refine ⟨?_, ?_, ?_⟩
  · rintro (h | h | h | ⟨h1, h2, h3⟩)
    · simp [loadMapping, h]
    · simp [loadMapping, h]
    · simp [loadMapping, h]
    · simp [loadMapping, selectHandler, h1, h2, h3]
  · intro m hm
    unfold loadMapping at hm
    split_ifs at hm with h1 h2
    cases hs : selectHandler env mappingFile.fileName with
    | none => simp [hs] at hm
    | some pHandler =>
      simp only [hs] at hm
      cases hl : env.load pHandler mappingFile.absoluteFilePath systemMappingsPath with
      | none => simp [hl] at hm
      | some m' =>
        simp [hl] at hm
        subst hm
        rfl
  · intro pHandler h1 h2 h3 hs
    simp [loadMapping, h1, h2, h3, hs]

end DocumentLemmas

/-! ## Tag case, labels, empty elements, `clone()` and `parseMappingInfo` -/

section FurtherLemmas

variable {σ : Type}

open LegacyControllerSettingsLayoutContainer

mutual
theorem sameUpToTagCase_stands_for (b : SettingBuilder σ)
    (hb : ∀ e e', sameUpToTagCase e e' = true → b.build e' = b.build e) :
    ∀ n n' : QDomNode, sameUpToTagCase n n' = true →
      settingsOf b n' = settingsOf b n ∧
        ∀ d w, layoutNodeOf b d w n' = layoutNodeOf b d w n
  | .text _, .text _, _ => by simp [settingsOf, layoutNodeOf]
  | .text _, .element _ _ _, h => by simp [sameUpToTagCase] at h
  | .element _ _ _, .text _, h => by simp [sameUpToTagCase] at h
  | .element tag attrs kids, .element tag' attrs' kids', h => by
    have hbuild := hb _ _ h
    simp only [sameUpToTagCase, Bool.and_eq_true, beq_iff_eq] at h
    obtain ⟨⟨htag, hattrs⟩, hkids⟩ := h
    have ih := sameUpToTagCaseList_stands_for b hb kids kids' hkids
    subst hattrs
    simp [settingsOf, layoutNodeOf, ← htag, acceptedSetting, hbuild, ih, rowOrientation,
      QDomNode.attributeValue]
theorem sameUpToTagCaseList_stands_for (b : SettingBuilder σ)
    (hb : ∀ e e', sameUpToTagCase e e' = true → b.build e' = b.build e) :
    ∀ ns ns' : List QDomNode, sameUpToTagCaseList ns ns' = true →
      settingsOfNodes b ns' = settingsOfNodes b ns ∧
        ∀ d w, layoutNodesOf b d w ns' = layoutNodesOf b d w ns
  | [], [], _ => by simp
  | [], _ :: _, h => by simp [sameUpToTagCaseList] at h
  | _ :: _, [], h => by simp [sameUpToTagCaseList] at h
  | n :: ns, n' :: ns', h => by
    simp only [sameUpToTagCaseList, Bool.and_eq_true] at h
    have h1 := sameUpToTagCase_stands_for b hb n n' h.1
    have h2 := sameUpToTagCaseList_stands_for b hb ns ns' h.2
    simp [settingsOfNodes, layoutNodesOf, h1, h2]
end

mutual
theorem handedToFactory_sameUpToTagCase :
    ∀ n n' : QDomNode, sameUpToTagCase n n' = true →
      List.Forall₂ (fun e e' => sameUpToTagCase e e' = true)
        (handedToFactory n) (handedToFactory n')
  | .text _, .text _, _ => by simp [handedToFactory]
  | .text _, .element _ _ _, h => by simp [sameUpToTagCase] at h
  | .element _ _ _, .text _, h => by simp [sameUpToTagCase] at h
  | .element tag attrs kids, .element tag' attrs' kids', h => by
    have hwhole := h
    simp only [sameUpToTagCase, Bool.and_eq_true, beq_iff_eq] at h
    obtain ⟨⟨htag, _⟩, hkids⟩ := h
    have ih := handedToFactoryList_sameUpToTagCase kids kids' hkids
    simp only [handedToFactory, ← htag]
    by_cases h1 : toLower tag = "option"
    · simp only [h1, if_true]
      exact List.Forall₂.cons hwhole List.Forall₂.nil
    · by_cases h2 : toLower tag = "row" ∨ toLower tag = "group"
      · simp only [h1, h2, if_true, if_false]; exact ih
      · simp only [h1, h2, if_false]; exact List.Forall₂.nil
theorem handedToFactoryList_sameUpToTagCase :
    ∀ ns ns' : List QDomNode, sameUpToTagCaseList ns ns' = true →
      List.Forall₂ (fun e e' => sameUpToTagCase e e' = true)
        (handedToFactoryList ns) (handedToFactoryList ns')
  | [], [], _ => by simp [handedToFactoryList]
  | [], _ :: _, h => by simp [sameUpToTagCaseList] at h
  | _ :: _, [], h => by simp [sameUpToTagCaseList] at h
  | n :: ns, n' :: ns', h => by
    simp only [sameUpToTagCaseList, Bool.and_eq_true] at h
    simp only [handedToFactoryList]
    exact List.rel_append (handedToFactory_sameUpToTagCase n n' h.1)
      (handedToFactoryList_sameUpToTagCase ns ns' h.2)
end

mutual
theorem settingsOf_recordingBuilder :
    ∀ n : QDomNode, settingsOf recordingBuilder n = handedToFactory n
  | .text _ => by simp [settingsOf, handedToFactory]
  | .element tag attrs kids => by
    have ih := settingsOfNodes_recordingBuilder kids
    by_cases h1 : toLower tag = "option"
    · simp [settingsOf, handedToFactory, h1, acceptedSetting, recordingBuilder]
    · by_cases h2 : toLower tag = "row" ∨ toLower tag = "group"
      · simp only [settingsOf, handedToFactory, h1, h2, if_true, if_false, ih]
      · simp only [settingsOf, handedToFactory, h1, h2, if_false]
theorem settingsOfNodes_recordingBuilder :
    ∀ ns : List QDomNode, settingsOfNodes recordingBuilder ns = handedToFactoryList ns
  | [] => by simp [settingsOfNodes, handedToFactoryList]
  | n :: ns => by
    simp [settingsOfNodes, handedToFactoryList, settingsOf_recordingBuilder n,
      settingsOfNodes_recordingBuilder ns]
end

mutual
theorem stands_for_of_agree (b b' : SettingBuilder σ) (hvalid : b.valid = b'.valid)
    (hitem : b.itemOrientation = b'.itemOrientation) :
    ∀ n : QDomNode, (∀ e ∈ handedToFactory n, b.build e = b'.build e) →
      settingsOf b n = settingsOf b' n ∧ ∀ d w, layoutNodeOf b d w n = layoutNodeOf b' d w n
  | .text _, _ => by simp [settingsOf, layoutNodeOf]
  | .element tag attrs kids, h => by
    by_cases h1 : toLower tag = "option"
    · have hb : b.build (.element tag attrs kids) = b'.build (.element tag attrs kids) :=
        h _ (by simp [handedToFactory, h1])
      simp [settingsOf, layoutNodeOf, h1, acceptedSetting, hb, hvalid, hitem]
    · by_cases h2 : toLower tag = "row" ∨ toLower tag = "group"
      · have ih := stands_for_of_agree_list b b' hvalid hitem kids
          (fun e he => h e (by simpa [handedToFactory, h1, h2] using he))
        rcases h2 with h2 | h2
        · simp [settingsOf, layoutNodeOf, h1, h2, ih]
        · have h3 : toLower tag ≠ "row" := by rw [h2]; decide
          simp [settingsOf, layoutNodeOf, h1, h2, h3, ih]
      · have h3 : toLower tag ≠ "row" := fun hr => h2 (Or.inl hr)
        have h4 : toLower tag ≠ "group" := fun hg => h2 (Or.inr hg)
        simp [settingsOf, layoutNodeOf, h1, h3, h4]
theorem stands_for_of_agree_list (b b' : SettingBuilder σ) (hvalid : b.valid = b'.valid)
    (hitem : b.itemOrientation = b'.itemOrientation) :
    ∀ ns : List QDomNode, (∀ e ∈ handedToFactoryList ns, b.build e = b'.build e) →
      settingsOfNodes b ns = settingsOfNodes b' ns ∧
        ∀ d w, layoutNodesOf b d w ns = layoutNodesOf b' d w ns
  | [], _ => by simp [settingsOfNodes, layoutNodesOf]
  | n :: ns, h => by
    have h1 := stands_for_of_agree b b' hvalid hitem n
      (fun e he => h e (by simp [handedToFactoryList, he]))
    have h2 := stands_for_of_agree_list b b' hvalid hitem ns
      (fun e he => h e (by simp [handedToFactoryList, he]))
    simp [settingsOfNodes, layoutNodesOf, h1, h2]
end

/-- C17: a `group` element adds a group whose label is the value of the `label`
attribute of the element as it is written, and the empty string when the
element has no `label` attribute. -/
theorem parseMappingSettingsElement_group_label (b : SettingBuilder σ) (tag : String)
    (attrs : List (String × String)) (kids : List QDomNode)
    (mapping : LegacyControllerMapping σ) (layout : LegacyControllerSettingsLayoutContainer σ)
    (hgroup : toLower tag = "group") :
    ∃ (d w : Disposition) (elements : List (LegacyControllerSettingsLayoutElement σ)),
      (parseMappingSettingsElement.body b (.element tag attrs kids) mapping layout).2.m_elements
        = layout.m_elements ++
          [.Group (match attrs.lookup "label" with
              | some value => value
              | none => "") d w elements] := by
  have h1 : toLower tag ≠ "option" := by rw [hgroup]; decide
  have h2 : toLower tag ≠ "row" := by rw [hgroup]; decide
  refine ⟨.VERTICAL, .HORIZONTAL, layoutNodesOf b .VERTICAL .HORIZONTAL kids, ?_⟩
  cases hl : attrs.lookup "label" <;>
    simp [body_eq, withElements, layoutNodeOf, h1, h2, hgroup, QDomNode.attributeValue, hl]

theorem parseMappingSettingsElement_group_label_witness :
    ∃ (d w : Disposition) (elements : List (LegacyControllerSettingsLayoutElement String)),
      (parseMappingSettingsElement.body exampleBuilder
          (.element "group" [("label", " Main Pads ")] []) {}
          (LegacyControllerSettingsLayoutContainer.new .VERTICAL)).2.m_elements
        = (LegacyControllerSettingsLayoutContainer.new .VERTICAL :
            LegacyControllerSettingsLayoutContainer String).m_elements ++
          [.Group (match [("label", " Main Pads ")].lookup "label" with
              | some value => value
              | none => "") d w elements] :=
  parseMappingSettingsElement_group_label exampleBuilder "group" [("label", " Main Pads ")] []
    {} (LegacyControllerSettingsLayoutContainer.new .VERTICAL) (by decide)

theorem loop_without_elements (b : SettingBuilder σ) (kids : List QDomNode)
    (hkids : ∀ n ∈ kids, n.isElement = false) :
    ∀ (m : LegacyControllerMapping σ) (l : LegacyControllerSettingsLayoutContainer σ),
      parseMappingSettingsElement.loop b kids m l = (m, l) := by
  induction kids with
  | nil => intro m l; exact loop_nil b m l
  | cons n ns ih =>
    intro m l
    have hn : n.isElement = false := hkids n (List.mem_cons_self n ns)
    have hbody : parseMappingSettingsElement.body b n m l = (m, l) := by
      cases n with
      | text _ => simp [parseMappingSettingsElement.body]
      | element _ _ _ => simp [QDomNode.isElement] at hn
    rw [loop_cons, hbody]
    exact ih (fun x hx => hkids x (List.mem_cons_of_mem n hx)) m l

/-- C18: an element without child elements gives an empty container: for a
`settings` element without child elements `parseMappingSettings` installs a root
container with disposition `VERTICAL` and no child; a `row` or a `group` without
child elements is appended to its parent as a container without child; in each
case the flat collection (the whole mapping but for the installed layout) is as
before. -/
theorem parseMappingSettings_childless (b : SettingBuilder σ) (tag : String)
    (attrs : List (String × String)) (kids : List QDomNode)
    (mapping : LegacyControllerMapping σ) (layout : LegacyControllerSettingsLayoutContainer σ)
    (hkids : ∀ n ∈ kids, n.isElement = false) :
    (∀ (root : QDomNode) (settingsTag : String) (settingsAttrs : List (String × String)),
        root.firstChildElement "settings" = some (.element settingsTag settingsAttrs kids) →
        parseMappingSettings b (some root) (some mapping) =
          some { mapping with
            settingLayout := some
              { m_label := none, m_disposition := .VERTICAL,
                m_widgetOrientation := .HORIZONTAL, m_elements := [] } }) ∧
      (toLower tag = "row" →
        parseMappingSettingsElement.body b (.element tag attrs kids) mapping layout =
          (mapping, { layout with
            m_elements := layout.m_elements ++
              [.LayoutContainer .HORIZONTAL (rowOrientation (.element tag attrs kids)) []] })) ∧
      (toLower tag = "group" →
        parseMappingSettingsElement.body b (.element tag attrs kids) mapping layout =
          (mapping, { layout with
            m_elements := layout.m_elements ++
              [.Group ((QDomNode.element tag attrs kids).attributeValue "label")
                .VERTICAL .HORIZONTAL []] })) := by
  have hloop := loop_without_elements b kids hkids
  refine ⟨?_, ?_, ?_⟩
  · intro root settingsTag settingsAttrs hroot
    simp [parseMappingSettings, hroot, parseMappingSettingsElement, QDomNode.childNodes, hloop,
      LegacyControllerMapping.setSettingLayout, new]
  · intro hrow
    have h1 : toLower tag ≠ "option" := by rw [hrow]; decide
    simp [parseMappingSettingsElement.body, h1, hrow, hloop, addItem, toElement, new,
      rowOrientation]
  · intro hgroup
    have h1 : toLower tag ≠ "option" := by rw [hgroup]; decide
    have h2 : toLower tag ≠ "row" := by rw [hgroup]; decide
    simp [parseMappingSettingsElement.body, h1, h2, hgroup, hloop, addItem, toElement, new,
      newGroup]

theorem parseMappingSettings_childless_witness :
    (∀ (root : QDomNode) (settingsTag : String) (settingsAttrs : List (String × String)),
        root.firstChildElement "settings" =
          some (.element settingsTag settingsAttrs [.text " "]) →
        parseMappingSettings exampleBuilder (some root) (some {}) =
          some { ({} : LegacyControllerMapping String) with
            settingLayout := some
              { m_label := none, m_disposition := .VERTICAL,
                m_widgetOrientation := .HORIZONTAL, m_elements := [] } }) ∧
      (toLower "row" = "row" →
        parseMappingSettingsElement.body exampleBuilder (.element "row" [] [.text " "]) {}
            (LegacyControllerSettingsLayoutContainer.new .VERTICAL) =
          ({}, { (LegacyControllerSettingsLayoutContainer.new .VERTICAL :
              LegacyControllerSettingsLayoutContainer String) with
            m_elements :=
              (LegacyControllerSettingsLayoutContainer.new .VERTICAL :
                LegacyControllerSettingsLayoutContainer String).m_elements ++
              [.LayoutContainer .HORIZONTAL
                (rowOrientation (.element "row" [] [.text " "])) []] })) ∧
      (toLower "row" = "group" →
        parseMappingSettingsElement.body exampleBuilder (.element "row" [] [.text " "]) {}
            (LegacyControllerSettingsLayoutContainer.new .VERTICAL) =
          ({}, { (LegacyControllerSettingsLayoutContainer.new .VERTICAL :
              LegacyControllerSettingsLayoutContainer String) with
            m_elements :=
              (LegacyControllerSettingsLayoutContainer.new .VERTICAL :
                LegacyControllerSettingsLayoutContainer String).m_elements ++
              [.Group ((QDomNode.element "row" [] [.text " "]).attributeValue "label")
                .VERTICAL .HORIZONTAL []] })) :=
  parseMappingSettings_childless exampleBuilder "row" [] [.text " "] {}
    (LegacyControllerSettingsLayoutContainer.new .VERTICAL) (by decide)

theorem cloneAll_length (u : Disposition × Disposition)
    (es : List (LegacyControllerSettingsLayoutElement σ)) :
    (LegacyControllerSettingsLayoutElement.cloneAll u es).length = es.length := by
  induction es with
  | nil => simp [LegacyControllerSettingsLayoutElement.cloneAll]
  | cons e es ih => simp [LegacyControllerSettingsLayoutElement.cloneAll, ih]

/-- C19 (what the code does): `clone()` of a container keeps the label and gives
as many children as the original has, each the clone of the child at the same
place, but its two orientation members are not copied from the original: they
are what the copy constructor leaves uninitialized.  The clone of the root
container of a settings layout (disposition `VERTICAL`) in which these members
read `HORIZONTAL` has disposition `HORIZONTAL`. -/
theorem clone_does_not_copy_orientation :
    (∀ (u : Disposition × Disposition) (c : LegacyControllerSettingsLayoutContainer σ),
        (c.clone u).m_label = c.m_label ∧
          (c.clone u).m_elements.length = c.m_elements.length ∧
          (c.clone u).m_elements =
            LegacyControllerSettingsLayoutElement.cloneAll u c.m_elements ∧
          (c.clone u).m_disposition = u.1 ∧ (c.clone u).m_widgetOrientation = u.2) ∧
      ((LegacyControllerSettingsLayoutContainer.new .VERTICAL :
          LegacyControllerSettingsLayoutContainer σ).clone
            (.HORIZONTAL, .HORIZONTAL)).m_disposition ≠
        (LegacyControllerSettingsLayoutContainer.new .VERTICAL :
          LegacyControllerSettingsLayoutContainer σ).m_disposition := by
  refine ⟨fun u c => ⟨rfl, ?_, rfl, rfl, rfl⟩, by
    simp [LegacyControllerSettingsLayoutContainer.clone, new]⟩
  simp [LegacyControllerSettingsLayoutContainer.clone, cloneAll_length]

/-- C20: `parseMappingInfo` leaves the mapping as it is when the root is null and
when the root has no `info` child, whatever attributes the root carries; when
there is an `info` child, the two version fields are set from the attributes
`mixxxVersion` and `schemaVersion` of the root, and name, author, description,
forumLink, manualPage and wikiLink are set to the text of the first child
`name`, `author`, `description`, `forums`, `manual`, `wiki` of `info`, or to the
empty string when there is no such child; no other field changes. -/
theorem parseMappingInfo_effect (mapping : LegacyControllerMapping σ) :
    parseMappingInfo none (some mapping) = some mapping ∧
      (∀ root : QDomNode, root.firstChildElement "info" = none →
        parseMappingInfo (some root) (some mapping) = some mapping) ∧
      (∀ root info : QDomNode, root.firstChildElement "info" = some info →
        parseMappingInfo (some root) (some mapping) =
          some { mapping with
            mixxxVersion := root.attributeValue "mixxxVersion" ""
            schemaVersion := root.attributeValue "schemaVersion" ""
            name := (info.firstChildElement "name").elim "" QDomNode.elementText
            author := (info.firstChildElement "author").elim "" QDomNode.elementText
            description := (info.firstChildElement "description").elim "" QDomNode.elementText
            forumlink := (info.firstChildElement "forums").elim "" QDomNode.elementText
            manualPage := (info.firstChildElement "manual").elim "" QDomNode.elementText
            wikilink := (info.firstChildElement "wiki").elim "" QDomNode.elementText }) := by
  have htext : ∀ (info : QDomNode) (tag : String),
      textOfChild info tag = (info.firstChildElement tag).elim "" QDomNode.elementText := by
    intro info tag
    unfold textOfChild
    cases info.firstChildElement tag <;> rfl
  refine ⟨rfl, ?_, ?_⟩
  · intro root hroot
    simp [parseMappingInfo, hroot]
  · intro root info hroot
    simp [parseMappingInfo, hroot, htext, LegacyControllerMapping.setMixxxVersion,
      LegacyControllerMapping.setSchemaVersion, LegacyControllerMapping.setName,
      LegacyControllerMapping.setAuthor, LegacyControllerMapping.setDescription,
      LegacyControllerMapping.setForumLink, LegacyControllerMapping.setManualPage,
      LegacyControllerMapping.setWikiLink]

end FurtherLemmas


end Mixxx
